import Mathlib

/-!
Verification of the question-extraction pipeline of `edu_extraction_ms`
(`src/fastapi_app/app.py`, `src/fastapi_app/models.py`, `src/fastapi_app/config.py`).

The Python code is shallowly embedded:
* Python strings are `String`; `str.strip()` is `pyStrip` (whitespace is modelled by
  `Char.isWhitespace`, i.e. space, tab, CR, LF);
* JSON values produced by `json.loads` are the inductive `Json`; a Python `dict`
  coming from a JSON object is a `List (String × Json)` with unique keys
  (duplicate keys are resolved last-wins at parse time, as in `json.loads`);
* `dict.get(k)` returns Python `None` both for an absent key and for a stored
  `null`/`None` value, so `pyGet` returns `Json.null` in both cases;
* the external services (Azure Document Intelligence, OpenAI) and the database
  commit are modelled as inputs of the run (`Env`): the layout-call outcome, the
  generative response per attempted page index, and the commit success per page;
* fallible Python code (raising `HTTPException`) returns `Except HTTPError _`;
* `uuid`, `created_at`/`updated_at` timestamps are nondeterministic and are not
  part of the persisted-record model (`Question`); no claim mentions them.
-/

namespace EduExtract

/-! ## Python string primitives -/

/-- Python `str.strip()` on the character list: drop whitespace from both ends. -/
def stripChars (l : List Char) : List Char :=
  (l.dropWhile Char.isWhitespace).rdropWhile Char.isWhitespace

/-- Python `str.strip()`. -/
def pyStrip (s : String) : String := ⟨stripChars s.data⟩

/-- Python `s.startswith(pre)` (character-wise, as Python slices by code point). -/
def strStartsWith (s pre : String) : Bool := pre.data.isPrefixOf s.data

/-- Python `s.endswith(suf)`. -/
def strEndsWith (s suf : String) : Bool := suf.data.isSuffixOf s.data

/-- Python `s[n:]`. -/
def strDrop (s : String) (n : Nat) : String := ⟨s.data.drop n⟩

/-- Python `s[:-n]` for `n > 0` (empty when `n ≥ len(s)`). -/
def strDropRight (s : String) (n : Nat) : String := ⟨s.data.rdrop n⟩

/-- Python `s.lower()` restricted to ASCII case mapping. -/
def pyLower (s : String) : String := ⟨s.data.map Char.toLower⟩

/-! ## JSON values

`Json` models the values `json.loads` can return (numbers restricted to
integers: no claim involves fractional numbers). -/

inductive Json where
  | null : Json
  | bool (b : Bool) : Json
  | num (n : Int) : Json
  | str (s : String) : Json
  | arr (items : List Json) : Json
  | obj (fields : List (String × Json)) : Json
deriving Repr, Inhabited

/-- Python `raw is None` on a JSON-derived value (`dict.get` yields `None` for
both an absent key and a stored `null`). -/
def Json.isNull : Json → Bool
  | .null => true
  | _ => false

/-- Python `isinstance(raw, dict)` on a JSON-derived value. -/
def Json.isObj : Json → Bool
  | .obj _ => true
  | _ => false

/-- Python truthiness of a JSON-derived value (`if raw:`). -/
def pyTruthy : Json → Bool
  | .null => false
  | .bool b => b
  | .num n => n ≠ 0
  | .str s => s ≠ ""
  | .arr items => ¬ items.isEmpty
  | .obj fields => ¬ fields.isEmpty

mutual

/-- Python `repr` of a JSON-derived value (quote escaping inside strings is not
reproduced; no claim depends on it). -/
def pyRepr : Json → String
  | .null => "None"
  | .bool true => "True"
  | .bool false => "False"
  | .num n => toString n
  | .str s => "'" ++ s ++ "'"
  | .arr items => "[" ++ String.intercalate ", " (pyReprList items) ++ "]"
  | .obj fields => "\x7b" ++ String.intercalate ", " (pyReprFields fields) ++ "\x7d"

def pyReprList : List Json → List String
  | [] => []
  | j :: js => pyRepr j :: pyReprList js

def pyReprFields : List (String × Json) → List String
  | [] => []
  | (k, v) :: fs => ("'" ++ k ++ "': " ++ pyRepr v) :: pyReprFields fs

end

/-- Python `str` of a JSON-derived value. -/
def pyStr : Json → String
  | .str s => s
  | j => pyRepr j

/-! ## Python dict operations (for JSON objects)

`json.loads` produces dicts with unique keys (duplicates resolved last-wins),
and the pipeline only ever overwrites or reads keys. -/

/-- Python `d[k] = v`: overwrite in place (keeping the key's position), else
append. Dicts built from parsed JSON have unique keys, for which overwriting
the first occurrence is exact. -/
def dictSet (d : List (String × Json)) (k : String) (v : Json) : List (String × Json) :=
  match d with
  | [] => [(k, v)]
  | p :: rest => if p.1 = k then (k, v) :: rest else p :: dictSet rest k v

/-- Python `d.get(k)`: `None` (i.e. `Json.null`) both when the key is absent and
when the stored value is `null`. -/
def pyGet (d : List (String × Json)) (k : String) : Json :=
  match d.find? (fun p => p.1 = k) with
  | some p => p.2
  | none => .null

/-- The Python `for` loops over candidates: apply `f` in order, first raised
error aborts the whole loop. -/
def mapExcept (f : α → Except ε β) : List α → Except ε (List β)
  | [] => .ok []
  | x :: xs =>
    match f x with
    | .error e => .error e
    | .ok y =>
      match mapExcept f xs with
      | .error e => .error e
      | .ok ys => .ok (y :: ys)

/-! ## A JSON parser modelling `json.loads`

Recursive descent with explicit fuel. Numbers are integers (optional minus);
string escapes cover the common single-character escapes; anything else fails,
which the pipeline treats the same way as any other `json.loads` error. -/

/-- JSON insignificant whitespace. -/
def skipWs (l : List Char) : List Char :=
  l.dropWhile fun c => c == ' ' || c == '\t' || c == '\n' || c == '\r'

/-- Consume an expected literal keyword tail. -/
def parseLit : List Char → List Char → Option (List Char)
  | [], l => some l
  | c :: cs, d :: ds => if d == c then parseLit cs ds else none
  | _ :: _, [] => none

/-- Parse the body of a JSON string after the opening quote. -/
def parseStringBody : List Char → Option (List Char × List Char)
  | [] => none
  | '"' :: rest => some ([], rest)
  | '\\' :: rest =>
    match rest with
    | [] => none
    | e :: rest2 =>
      let c? : Option Char :=
        if e == '"' then some '"'
        else if e == '\\' then some '\\'
        else if e == '/' then some '/'
        else if e == 'n' then some '\n'
        else if e == 't' then some '\t'
        else if e == 'r' then some '\r'
        else none
      match c? with
      | none => none
      | some c =>
        match parseStringBody rest2 with
        | some (cs, r) => some (c :: cs, r)
        | none => none
  | c :: rest =>
    match parseStringBody rest with
    | some (cs, r) => some (c :: cs, r)
    | none => none

/-- Digits to a natural number. -/
def natOfDigits (ds : List Char) : Nat :=
  ds.foldl (fun n c => n * 10 + (c.toNat - '0'.toNat)) 0

mutual

def parseVal : Nat → List Char → Option (Json × List Char)
  | 0, _ => none
  | fuel + 1, l =>
    match skipWs l with
    | [] => none
    | c :: rest =>
      if c == '"' then
        match parseStringBody rest with
        | some (cs, r) => some (.str ⟨cs⟩, r)
        | none => none
      else if c == '[' then
        match skipWs rest with
        | ']' :: r2 => some (.arr [], r2)
        | _ =>
          match parseItems fuel rest with
          | some (items, r2) => some (.arr items, r2)
          | none => none
      else if c == '\x7b' then
        match skipWs rest with
        | '\x7d' :: r2 => some (.obj [], r2)
        | _ =>
          match parseFields fuel rest with
          | some (fs, r2) =>
            some (.obj (fs.foldl (fun d p => dictSet d p.1 p.2) []), r2)
          | none => none
      else if c == 't' then
        match parseLit ['r', 'u', 'e'] rest with
        | some r => some (.bool true, r)
        | none => none
      else if c == 'f' then
        match parseLit ['a', 'l', 's', 'e'] rest with
        | some r => some (.bool false, r)
        | none => none
      else if c == 'n' then
        match parseLit ['u', 'l', 'l'] rest with
        | some r => some (.null, r)
        | none => none
      else if c == '-' then
        match rest with
        | d :: _ =>
          if d.isDigit then
            let ds := rest.takeWhile Char.isDigit
            some (.num (-(natOfDigits ds : Int)), rest.drop ds.length)
          else none
        | [] => none
      else if c.isDigit then
        let ds := (c :: rest).takeWhile Char.isDigit
        some (.num (natOfDigits ds : Int), (c :: rest).drop ds.length)
      else none

def parseItems : Nat → List Char → Option (List Json × List Char)
  | 0, _ => none
  | fuel + 1, l =>
    match parseVal fuel l with
    | none => none
    | some (v, r) =>
      match skipWs r with
      | ',' :: r2 =>
        match parseItems fuel r2 with
        | some (vs, r3) => some (v :: vs, r3)
        | none => none
      | ']' :: r2 => some ([v], r2)
      | _ => none

def parseFields : Nat → List Char → Option (List (String × Json) × List Char)
  | 0, _ => none
  | fuel + 1, l =>
    match skipWs l with
    | '"' :: rest =>
      match parseStringBody rest with
      | none => none
      | some (kcs, r) =>
        match skipWs r with
        | ':' :: r2 =>
          match parseVal fuel r2 with
          | none => none
          | some (v, r3) =>
            match skipWs r3 with
            | ',' :: r4 =>
              match parseFields fuel r4 with
              | some (fs, r5) => some ((⟨kcs⟩, v) :: fs, r5)
              | none => none
            | '\x7d' :: r4 => some ([(⟨kcs⟩, v)], r4)
            | _ => none
        | _ => none
    | _ => none

end

/-- `json.loads`: parse the whole string, requiring full consumption. -/
def json_loads (s : String) : Option Json :=
  match parseVal (s.data.length + 1) s.data with
  | some (v, r) => if skipWs r = [] then some v else none
  | none => none

/-! ## Errors and configuration -/

/-- `fastapi.HTTPException(status_code, detail)`. -/
structure HTTPError where
  status : Nat
  detail : String
deriving Repr, DecidableEq

/-- `config.py`: the values consumed by the pipeline. `DEFAULT_UPLOADED_BY`
defaults to `"system"` and `DEFAULT_UPDATED_BY` to `None`, but both come from
the environment, so they are kept abstract here. -/
structure Config where
  default_uploaded_by : String
  default_updated_by : Option String
deriving Repr, DecidableEq

/-- The common Python pattern `str(x).strip() if x and str(x).strip() else None`
on an optional string (`None` and `""` are both falsy; `x is not None and
str(x).strip()` coincides with it on strings). -/
def normStr (raw : Option String) : Option String :=
  match raw with
  | none => none
  | some s => if pyStrip s = "" then none else some (pyStrip s)

/-! ## The persisted record (`models.py`, class `Question`)

`Question` carries exactly the column attributes declared by the SQLModel in
`models.py` (minus the generated `id` and the `created_at`/`updated_at`
timestamps, which are nondeterministic and mentioned by no claim). Note that
the SQLModel declares **no** `option1`..`option6` columns. -/

structure Question where
  file_name : String
  subject_name : String
  lesson_title : String
  class_name : Option String
  specialization : Option String
  question : String
  question_type : Option String
  question_difficulty : Option String
  page_number : Option String
  answer_steps : Option String
  correct_answer : Option String
  uploaded_by : String
  updated_by : Option String
deriving Repr, DecidableEq

/-! ## `store_questions_in_db` (app.py lines 362-504) -/

/-- app.py lines 404-411. -/
def allowed_question_types : List String :=
  ["Descriptive", "Multiple Choice", "True/False", "Fill in the blank",
   "Short Answer", "Comprehension"]

/-- app.py line 412. -/
def allowed_difficulties : List String := ["Easy", "Medium", "Hard"]

/-- Lines 440-443 / 445-448: `x = str(raw).strip() if raw else None;`
`if x and x not in allowed: x = None`. -/
def sanitizeEnum (allowed : List String) (raw : Json) : Option String :=
  let x : Option String := if pyTruthy raw then some (pyStrip (pyStr raw)) else none
  match x with
  | some t => if t ≠ "" ∧ t ∉ allowed then none else some t
  | none => none

/-- Lines 454-464 pattern: `str(raw).strip() if raw and str(raw).strip() else None`. -/
def fieldOpt (raw : Json) : Option String :=
  if pyTruthy raw ∧ pyStrip (pyStr raw) ≠ "" then some (pyStrip (pyStr raw)) else none

/-- The values lines 380-402 resolve before the per-candidate loop. -/
structure StoreCtx where
  file_name : String
  subject_name : String
  class_name : Option String
  specialization : Option String
  uploaded_by : String
  updated_by : Option String
deriving Repr, DecidableEq

/-- Lines 376-402: validate `file_name`/`subject_name`, resolve
`uploaded_by`/`updated_by` through the supplied value first, then the
configured default. -/
def resolveStoreCtx (cfg : Config) (file_name : String) (subject_name : Option String)
    (class_name specialization uploaded_by updated_by : Option String) :
    Except HTTPError StoreCtx :=
  if file_name = "" then
    .error ⟨500, "File name is missing for database insert."⟩
  else
    match normStr subject_name with
    | none => .error ⟨400, "subject_name is required."⟩
    | some subject_name_value =>
      let class_name_value := normStr class_name
      let specialization_value := normStr specialization
      let uploaded_by_value : Option String :=
        match normStr uploaded_by with
        | some u => some u
        | none => normStr (some cfg.default_uploaded_by)
      match uploaded_by_value with
      | none => .error ⟨400, "uploaded_by is required."⟩
      | some u =>
        let updated_by_value : Option String :=
          match normStr updated_by with
          | some x => some x
          | none => normStr cfg.default_updated_by
        .ok ⟨file_name, subject_name_value, class_name_value, specialization_value,
             u, updated_by_value⟩

/-- Lines 459-464: the six option values computed from the candidate. They are
passed to the `Question(...)` constructor (lines 482-487), but the SQLModel in
`models.py` declares no `option1`..`option6` fields, so they are not column
values of the persisted row (SQLModel table classes silently accept unknown
constructor keywords). -/
def candidateOptions (q : List (String × Json)) : List (Option String) :=
  [fieldOpt (pyGet q "option1"), fieldOpt (pyGet q "option2"),
   fieldOpt (pyGet q "option3"), fieldOpt (pyGet q "option4"),
   fieldOpt (pyGet q "option5"), fieldOpt (pyGet q "option6")]

/-- Lines 414-494: turn one candidate dict into a persisted row (the
`try/except` around the `q.get` calls is dead code: `dict.get` does not raise). -/
def sanitizeCandidate (sc : StoreCtx) (q : List (String × Json)) :
    Except HTTPError Question :=
  let question_text_raw := pyGet q "question"
  if question_text_raw.isNull ∨ pyStrip (pyStr question_text_raw) = "" then
    .error ⟨500, "Missing question text for database insert."⟩
  else
    let question_text := pyStrip (pyStr question_text_raw)
    let question_type := sanitizeEnum allowed_question_types (pyGet q "question_type")
    let question_difficulty := sanitizeEnum allowed_difficulties (pyGet q "question_difficulty")
    let page_number_raw := pyGet q "page_number"
    let page_number : Option String :=
      if ¬ page_number_raw.isNull ∧ pyStrip (pyStr page_number_raw) ≠ "" then
        some (pyStrip (pyStr page_number_raw))
      else none
    let answer_steps := fieldOpt (pyGet q "answer_steps")
    let correct_answer := fieldOpt (pyGet q "correct_answer")
    match fieldOpt (pyGet q "lesson_title") with
    | none => .error ⟨500, "Missing lesson name for database insert."⟩
    | some lesson_title =>
      .ok { file_name := sc.file_name
            subject_name := sc.subject_name
            lesson_title := lesson_title
            class_name := sc.class_name
            specialization := sc.specialization
            question := question_text
            question_type := question_type
            question_difficulty := question_difficulty
            page_number := page_number
            answer_steps := answer_steps
            correct_answer := correct_answer
            uploaded_by := sc.uploaded_by
            updated_by := sc.updated_by }

/-- The per-candidate loop of lines 414-496: first error aborts. -/
def sanitizeBatch (sc : StoreCtx) (qs : List (List (String × Json))) :
    Except HTTPError (List Question) :=
  mapExcept (sanitizeCandidate sc) qs

/-- `store_questions_in_db` (lines 362-504). `commitOk` is the outcome of
`session.commit()`. Returns the committed batch; the early return for an empty
candidate list commits nothing and performs no validation. -/
def store_questions_in_db (cfg : Config) (commitOk : Bool)
    (questions : List (List (String × Json))) (file_name : String)
    (subject_name class_name specialization uploaded_by updated_by : Option String) :
    Except HTTPError (List Question) :=
  if questions.isEmpty then .ok []
  else
    match resolveStoreCtx cfg file_name subject_name class_name specialization
        uploaded_by updated_by with
    | .error e => .error e
    | .ok sc =>
      match sanitizeBatch sc questions with
      | .error e => .error e
      | .ok batch =>
        if commitOk then .ok batch
        else .error ⟨500, "Failed to persist questions to database."⟩

/-- The transactional behaviour of lines 496-504 over the session's store: all
rows of the batch are `session.add`ed and committed as one unit; on commit
failure the batch is rolled back and the store is unchanged; on any earlier
error the staged rows are never committed. -/
def store_txn (cfg : Config) (db : List Question) (commitOk : Bool)
    (questions : List (List (String × Json))) (file_name : String)
    (subject_name class_name specialization uploaded_by updated_by : Option String) :
    List Question × Option HTTPError :=
  match store_questions_in_db cfg commitOk questions file_name subject_name
      class_name specialization uploaded_by updated_by with
  | .ok batch => (db ++ batch, none)
  | .error e => (db, some e)

/-! ## `extract_questions_from_markdown` (app.py lines 244-357) -/

/-- The outcome of the OpenAI chat-completion call, an input of the run. -/
inductive LLMOutcome where
  | apiError (msg : String)
  | response (text : String)
deriving Repr, DecidableEq

/-- Lines 337-341: remove markdown code-fence markers if present. Only the
leading marker is tested; `[7:-3]`/`[3:-3]` unconditionally also removes the
final three characters. -/
def stripCodeFence (s : String) : String :=
  if strStartsWith s "```json" then pyStrip (strDropRight (strDrop s 7) 3)
  else if strStartsWith s "```" then pyStrip (strDropRight (strDrop s 3) 3)
  else s

/-- Lines 343-352 as one check: the parsed value must be a JSON array whose
elements are all objects. -/
def isArrayOfObjects : Option Json → Bool
  | some (.arr items) => items.all Json.isObj
  | _ => false

/-- `extract_questions_from_markdown`: the 503 for a missing client is raised
before the `try`; every failure inside the `try` (API error, `json.loads`
error, shape error) is re-raised as a 500 whose detail starts with
"OpenAI extraction failed: ". -/
def extract_questions_from_markdown (openaiConfigured : Bool) (call : LLMOutcome) :
    Except HTTPError (List Json) :=
  if ¬ openaiConfigured then
    .error ⟨503, "OpenAI client not configured. Please set OPENAI_API_KEY."⟩
  else
    match call with
    | .apiError msg => .error ⟨500, "OpenAI extraction failed: " ++ msg⟩
    | .response text =>
      let result_text := stripCodeFence (pyStrip text)
      match json_loads result_text with
      | none => .error ⟨500, "OpenAI extraction failed: invalid JSON"⟩
      | some j =>
        match j with
        | .arr items =>
          if items.all Json.isObj then .ok items
          else .error ⟨500,
            "OpenAI extraction failed: Each question entry must be a JSON object."⟩
        | _ => .error ⟨500,
            "OpenAI extraction failed: Expected a list of questions in JSON array."⟩

/-! ## `extract_markdown_from_pdf_azure` (app.py lines 166-239)

The Azure result is an input of the run. A span whose `offset` or `length`
is `None` is skipped by the code (line 212-213) and is omitted from the model
at the boundary; a bounding region whose `page_number` is `None` is likewise
skipped (lines 194-196), so regions carry `Option Nat`. A page's `content`
of `None` and of `""` behave identically (only truthiness is used), so
`content` is an `Option String` with `getD ""`. -/

structure AzureSpan where
  offset : Nat
  length : Nat
deriving Repr, DecidableEq

structure AzurePage where
  page_number : Nat
  content : Option String
  spans : List AzureSpan
deriving Repr, DecidableEq

structure Paragraph where
  regions : List (Option Nat)
  content : String
deriving Repr, DecidableEq

structure AzureResult where
  content : String
  pages : List AzurePage
  languages : List (Option String)
  paragraphs : List Paragraph
deriving Repr, DecidableEq

/-- Lines 208-215: `full_content[start : start + length]` fragments, joined. -/
def spanFragments (full : List Char) (spans : List AzureSpan) : String :=
  ⟨spans.flatMap fun sp => (full.drop sp.offset).take sp.length⟩

/-- Lines 189-197 + 218: the paragraph contents geo-located to a page, one
occurrence per bounding region naming the page, in iteration order. -/
def paraContentsFor (paras : List Paragraph) (pn : Nat) : List String :=
  paras.flatMap fun para =>
    para.regions.filterMap fun r => if r = some pn then some para.content else none

/-- Lines 203-227: the per-page text fallback chain, then `.strip()`. -/
def pageContent (full : String) (paras : List Paragraph) (p : AzurePage) : String :=
  let c0 : String := p.content.getD ""
  let c1 : String :=
    if c0 = "" then
      if ¬ p.spans.isEmpty ∧ full ≠ "" then spanFragments full.data p.spans else c0
    else c0
  let c2 : String :=
    if c1 = "" then
      String.intercalate "\n" ((paraContentsFor paras p.page_number).filter (· ≠ ""))
    else c1
  pyStrip c2

structure PageEntry where
  page_number : Nat
  content : String
deriving Repr, DecidableEq

/-- The dict returned at lines 230-235. -/
structure LayoutResult where
  page_count : Nat
  languages : List String
  full_content : String
  pages : List PageEntry
deriving Repr, DecidableEq

/-- Lines 185-235: assemble the layout result (`page_count = len(pages)`,
languages keep the non-empty locales). -/
def assembleLayout (r : AzureResult) : LayoutResult :=
  { page_count := r.pages.length
    languages := r.languages.filterMap fun lo =>
      match lo with
      | some s => if s ≠ "" then some s else none
      | none => none
    full_content := r.content
    pages := r.pages.map fun p =>
      { page_number := p.page_number, content := pageContent r.content r.paragraphs p } }

/-- `extract_markdown_from_pdf_azure`: 503 when the client is not configured
(checked before any call), 500 when the remote call raises. -/
def extract_markdown_from_pdf_azure (azureConfigured : Bool)
    (call : Except String AzureResult) : Except HTTPError LayoutResult :=
  if ¬ azureConfigured then
    .error ⟨503, "Azure Document Intelligence client not configured. Please set AZURE_DOC_INTELLIGENCE_ENDPOINT and AZURE_DOC_INTELLIGENCE_KEY."⟩
  else
    match call with
    | .error msg => .error ⟨500, "Azure extraction failed: " ++ msg⟩
    | .ok r => .ok (assembleLayout r)

/-! ## The `/extract` endpoint (app.py lines 639-869) -/

/-- The `metadata` form field after `json.loads`: either malformed JSON
(line 674: 400) or a parsed object. -/
inductive MetadataBlob where
  | malformed (msg : String)
  | parsed (values : List (String × Json))

/-- The request-controlled inputs of one `/extract` call. -/
structure ExtractRequest where
  filename : String
  metadata : Option MetadataBlob
  subject_name : Option String
  class_name : Option String
  specialization : Option String
  uploaded_by : Option String
  updated_by : Option String

/-- Lines 678-718 pattern: the form field wins when present (`x if x is not
None else metadata_values.get(key)`), then
`raw.strip() if isinstance(raw, str) and raw.strip() else None`. -/
def resolveField (form : Option String) (md : List (String × Json)) (key : String) :
    Option String :=
  let raw : Json :=
    match form with
    | some s => .str s
    | none => pyGet md key
  match raw with
  | .str s => if pyStrip s = "" then none else some (pyStrip s)
  | _ => none

/-- The validated request context (subject and uploader non-empty). -/
structure RunCtx where
  file_name : String
  subject_name : String
  class_name : Option String
  specialization : Option String
  uploaded_by : String
  updated_by : Option String
deriving Repr, DecidableEq

/-- Lines 669-718: metadata parsing and field validation, in source order. -/
def resolveCtx (req : ExtractRequest) : Except HTTPError RunCtx :=
  let md? : Except HTTPError (List (String × Json)) :=
    match req.metadata with
    | none => .ok []
    | some (.malformed msg) => .error ⟨400, "Invalid metadata JSON: " ++ msg⟩
    | some (.parsed values) => .ok values
  match md? with
  | .error e => .error e
  | .ok md =>
    match resolveField req.subject_name md "subject_name" with
    | none => .error ⟨400, "subject_name is required."⟩
    | some subject_name_value =>
      let class_name_value := resolveField req.class_name md "class_name"
      let specialization_value := resolveField req.specialization md "specialization"
      match resolveField req.uploaded_by md "uploaded_by" with
      | none => .error ⟨400, "uploaded_by is required."⟩
      | some uploaded_by_value =>
        let updated_by_value := resolveField req.updated_by md "updated_by"
        .ok ⟨req.filename, subject_name_value, class_name_value, specialization_value,
             uploaded_by_value, updated_by_value⟩

/-- `optToJson`: a resolved optional string written into the candidate dict
(lines 794-799 write `None` for an absent value). -/
def optToJson : Option String → Json
  | some s => .str s
  | none => .null

/-- Lines 793-799: overwrite the context-derived keys of the candidate dict. -/
def setContextFields (ctx : RunCtx) (pn : Nat) (fields : List (String × Json)) :
    List (String × Json) :=
  dictSet
    (dictSet
      (dictSet
        (dictSet
          (dictSet
            (dictSet fields "page_number" (.str (toString pn)))
            "subject_name" (.str ctx.subject_name))
          "class_name" (optToJson ctx.class_name))
        "specialization" (optToJson ctx.specialization))
      "uploaded_by" (.str ctx.uploaded_by))
    "updated_by" (optToJson ctx.updated_by)

/-- Lines 801-805: default a missing/blank `lesson_title` to the subject name,
else trim it. -/
def setLessonTitle (ctx : RunCtx) (d : List (String × Json)) :
    List (String × Json) :=
  let lt := pyGet d "lesson_title"
  if lt.isNull ∨ pyStrip (pyStr lt) = "" then
    dictSet d "lesson_title" (.str ctx.subject_name)
  else
    dictSet d "lesson_title" (.str (pyStrip (pyStr lt)))

/-- Lines 807-813 pattern: when the key is present and not `None`, trim its
value, writing `None` for a blank result. -/
def setOptField (d : List (String × Json)) (key : String) :
    List (String × Json) :=
  let v := pyGet d key
  if v.isNull then d
  else
    dictSet d key (if pyStrip (pyStr v) = "" then .null else .str (pyStrip (pyStr v)))

/-- Lines 788-815: per-candidate normalization before storage. The
`isinstance(question, dict)` check is line 789-791. -/
def normalizeQuestion (ctx : RunCtx) (pn : Nat) (j : Json) :
    Except HTTPError (List (String × Json)) :=
  match j with
  | .obj fields =>
    .ok (setOptField
          (setOptField (setLessonTitle ctx (setContextFields ctx pn fields))
            "answer_steps")
          "correct_answer")
  | _ => .error ⟨500, "Invalid question format received from extraction."⟩

/-- The sanitize-and-enrich loop over one page's extracted questions. -/
def normalizeQuestions (ctx : RunCtx) (pn : Nat) (items : List Json) :
    Except HTTPError (List (List (String × Json))) :=
  mapExcept (normalizeQuestion ctx pn) items

/-! ## The per-page loop (app.py lines 735-838) -/

/-- One entry of the `pages` list of the run summary (lines 747-753, 766-783,
832-838). -/
structure PageSummary where
  page_number : Nat
  questions_extracted : Nat
  status : String
  error : Option String
deriving Repr, DecidableEq

/-- The `summary` object of the 200 response (lines 849-855). -/
structure Summary where
  total_pages_detected : Nat
  pages_with_content : Nat
  pages_skipped : Nat
  questions_stored : Nat
  pages : List PageSummary
deriving Repr, DecidableEq

/-- The run's external collaborators: service configuration, the layout-call
outcome, the generative response for the page at each index of the layout's
page list, and the `commit()` outcome for each page index. -/
structure Env where
  cfg : Config
  azureConfigured : Bool
  openaiConfigured : Bool
  azure : Except String AzureResult
  llm : Nat → LLMOutcome
  commitOk : Nat → Bool

/-- The mutable state of the loop (lines 735-738), plus the store contents and
an instrumentation trace of the page indices for which the OpenAI API was
actually invoked. -/
structure LoopState where
  pages_attempted : Nat
  pages_skipped : Nat
  total_questions : Nat
  page_summaries : List PageSummary
  db : List Question
  calls : List Nat
deriving Repr, DecidableEq

def initState : LoopState := ⟨0, 0, 0, [], [], []⟩

/-- What one iteration of the loop body does for the page at index `idx`,
before its effect on the accumulated state: skip (lines 745-754), process
(extract, normalize, store: lines 763-838), fail during extraction (a failed
summary is appended, lines 765-784), or fail later (normalization line 791 or
storage: the exception propagates with no summary appended). -/
inductive PageEffect where
  | skip : PageEffect
  | processed (batch : List Question) : PageEffect
  | failedExtract (e : HTTPError) : PageEffect
  | failedLate (e : HTTPError) : PageEffect
deriving Repr, DecidableEq

/-- The loop body's decision for one page, as determined by the page text, the
generative response at this index, and the store. The store is invoked with
the validated context values exactly as at lines 818-827. -/
def pageEffect (env : Env) (ctx : RunCtx) (idx : Nat) (page : PageEntry) : PageEffect :=
  if pyStrip page.content = "" then .skip
  else
    match extract_questions_from_markdown env.openaiConfigured (env.llm idx) with
    | .error e => .failedExtract e
    | .ok items =>
      match normalizeQuestions ctx page.page_number items with
      | .error e => .failedLate e
      | .ok sanitized =>
        match store_questions_in_db env.cfg (env.commitOk idx) sanitized ctx.file_name
            (some ctx.subject_name) ctx.class_name ctx.specialization
            (some ctx.uploaded_by) ctx.updated_by with
        | .ok batch => .processed batch
        | .error e => .failedLate e

/-- Lines 745-754: the skip branch's state update. -/
def stSkip (st : LoopState) (page : PageEntry) : LoopState :=
  { st with pages_skipped := st.pages_skipped + 1
            page_summaries := st.page_summaries ++
              [⟨page.page_number, 0, "skipped_empty_content", none⟩] }

/-- Line 756 (and the API call itself): attempt accounting. The OpenAI API is
only reached when the client is configured. -/
def stAttempt (env : Env) (st : LoopState) (idx : Nat) : LoopState :=
  { st with pages_attempted := st.pages_attempted + 1
            calls := if env.openaiConfigured then st.calls ++ [idx] else st.calls }

/-- Lines 818-838: the successful-page state update (`questions_count =
len(sanitized_questions)` equals the committed batch's length). -/
def stProcessed (env : Env) (st : LoopState) (idx : Nat) (page : PageEntry)
    (batch : List Question) : LoopState :=
  let st1 := stAttempt env st idx
  { st1 with db := st1.db ++ batch
             total_questions := st1.total_questions + batch.length
             page_summaries := st1.page_summaries ++
               [⟨page.page_number, batch.length,
                 if batch.length ≠ 0 then "processed" else "processed_no_questions",
                 none⟩] }

/-- Lines 765-784: extraction failure appends a failed summary, then re-raises. -/
def stFailedExtract (env : Env) (st : LoopState) (idx : Nat) (page : PageEntry)
    (e : HTTPError) : LoopState :=
  let st1 := stAttempt env st idx
  { st1 with page_summaries := st1.page_summaries ++
      [⟨page.page_number, 0, "failed", some e.detail⟩] }

/-- The loop of lines 741-838: pages strictly in order, first failure aborts
with the raised error; the committed rows of earlier pages stay in the store. -/
def processPages (env : Env) (ctx : RunCtx) :
    List PageEntry → Nat → LoopState → LoopState × Option HTTPError
  | [], _, st => (st, none)
  | page :: rest, idx, st =>
    match pageEffect env ctx idx page with
    | .skip => processPages env ctx rest (idx + 1) (stSkip st page)
    | .processed batch =>
      processPages env ctx rest (idx + 1) (stProcessed env st idx page batch)
    | .failedExtract e => (stFailedExtract env st idx page e, some e)
    | .failedLate e => (stAttempt env st idx, some e)

/-- The observables of one `/extract` call: the HTTP outcome, the store
contents, the OpenAI invocations, the internal per-page summary trace, and the
scratch-directory lifecycle flags. -/
structure RunResult where
  response : Except HTTPError Summary
  db : List Question
  calls : List Nat
  summaries : List PageSummary
  scratchCreated : Bool
  cleanupScheduled : Bool

/-- Lines 668-856: the body of the `try` block (validation, layout extraction,
the per-page loop, the summary), together with the store/call/summary
observables. -/
def runBody (env : Env) (req : ExtractRequest) :
    Except HTTPError Summary × List Question × List Nat × List PageSummary :=
  match resolveCtx req with
  | .error e => (.error e, [], [], [])
  | .ok ctx =>
    match extract_markdown_from_pdf_azure env.azureConfigured env.azure with
    | .error e => (.error e, [], [], [])
    | .ok layout =>
      if layout.pages.isEmpty then
        (.error ⟨500, "Azure Document Intelligence did not return any pages."⟩, [], [], [])
      else
        match processPages env ctx layout.pages 0 initState with
        | (st, some e) => (.error e, st.db, st.calls, st.page_summaries)
        | (st, none) =>
          let total_pages :=
            if layout.page_count ≠ 0 then layout.page_count else layout.pages.length
          (.ok { total_pages_detected := total_pages
                 pages_with_content := st.pages_attempted
                 pages_skipped := st.pages_skipped
                 questions_stored := st.total_questions
                 pages := st.page_summaries },
           st.db, st.calls, st.page_summaries)

/-- The `/extract` endpoint (lines 639-869). The PDF-extension check (line
662) precedes the scratch-directory creation (line 665); afterwards every
exit path — the 200 return at line 860, the `except HTTPException` handler at
lines 862-865 and the catch-all handler at lines 866-869 — schedules
`cleanup_temp_dir` on the background tasks before returning or re-raising. -/
def runExtract (env : Env) (req : ExtractRequest) : RunResult :=
  if ¬ strEndsWith (pyLower req.filename) ".pdf" then
    { response := .error ⟨400, "Only PDF files are supported."⟩
      db := [], calls := [], summaries := []
      scratchCreated := false, cleanupScheduled := false }
  else
    match runBody env req with
    | (.ok s, db, calls, sums) =>
      { response := .ok s, db := db, calls := calls, summaries := sums
        scratchCreated := true, cleanupScheduled := true }
    | (.error e, db, calls, sums) =>
      { response := .error e, db := db, calls := calls, summaries := sums
        scratchCreated := true, cleanupScheduled := true }

/-! ## Derived notions used to state and prove the claims -/

/-- The option-field keys of a candidate dict. -/
def optionKeys : List String :=
  ["option1", "option2", "option3", "option4", "option5", "option6"]

/-- A candidate with its option fields removed. -/
def eraseOptionKeys (q : List (String × Json)) : List (String × Json) :=
  q.filter fun p => ¬ p.1 ∈ optionKeys

/-- The metadata values the endpoint reads (empty when no blob was supplied). -/
def requestMeta (req : ExtractRequest) : List (String × Json) :=
  match req.metadata with
  | some (.parsed values) => values
  | _ => []

/-- The metadata blob, when supplied, parsed without error. -/
def metaWellFormed (req : ExtractRequest) : Prop :=
  match req.metadata with
  | some (.malformed _) => False
  | _ => True

/-- Whether a page effect lets the loop continue. -/
def effectOk : PageEffect → Bool
  | .skip => true
  | .processed _ => true
  | .failedExtract _ => false
  | .failedLate _ => false

/-- The error a failing page effect raises. -/
def effectError : PageEffect → Option HTTPError
  | .failedExtract e => some e
  | .failedLate e => some e
  | _ => none

/-- The rows a page effect commits. -/
def effectBatch : PageEffect → List Question
  | .processed b => b
  | _ => []

/-- The state update a page effect performs. -/
def applyEffect (env : Env) (ctx : RunCtx) (idx : Nat) (page : PageEntry)
    (st : LoopState) : LoopState :=
  match pageEffect env ctx idx page with
  | .skip => stSkip st page
  | .processed batch => stProcessed env st idx page batch
  | .failedExtract e => stFailedExtract env st idx page e
  | .failedLate _ => stAttempt env st idx

/-- A page list paired with its loop indices, starting at `n`. -/
def pageIdx : Nat → List PageEntry → List (Nat × PageEntry)
  | _, [] => []
  | n, p :: ps => (n, p) :: pageIdx (n + 1) ps

/-- Fold a run of page effects over the state. -/
def applyEffects (env : Env) (ctx : RunCtx) (st : LoopState) :
    List (Nat × PageEntry) → LoopState
  | [] => st
  | ip :: ps => applyEffects env ctx (applyEffect env ctx ip.1 ip.2 st) ps

/-- The rows an indexed page commits. -/
def batchOf (env : Env) (ctx : RunCtx) (ip : Nat × PageEntry) : List Question :=
  effectBatch (pageEffect env ctx ip.1 ip.2)

/-- The OpenAI invocation an indexed page performs (none when skipped or when
the client is not configured). -/
def callsOf (env : Env) (ip : Nat × PageEntry) : Option Nat :=
  if pyStrip ip.2.content = "" then none
  else if env.openaiConfigured then some ip.1 else none

/-- The summary entry an indexed page contributes when the loop continues past
it or fails during extraction. -/
def summaryOf (env : Env) (ctx : RunCtx) (ip : Nat × PageEntry) : PageSummary :=
  match pageEffect env ctx ip.1 ip.2 with
  | .skip => ⟨ip.2.page_number, 0, "skipped_empty_content", none⟩
  | .processed b =>
    ⟨ip.2.page_number, b.length,
     if b.length ≠ 0 then "processed" else "processed_no_questions", none⟩
  | .failedExtract e => ⟨ip.2.page_number, 0, "failed", some e.detail⟩
  | .failedLate _ => ⟨ip.2.page_number, 0, "", none⟩

/-- The claim's notion of a fence-wrapped response: a leading and a trailing
fence marker. -/
def isFenceWrapped (s : String) : Prop :=
  strStartsWith s "```" = true ∧ strEndsWith s "```" = true

/-! ## Concrete fixtures for witnesses and counterexamples -/

def cfgW : Config := ⟨"system", none⟩

/-- A two-page layout result: page 1 has text, page 2 is whitespace-only. -/
def azureW : AzureResult :=
  ⟨"", [⟨1, some "hello", []⟩, ⟨2, some "  ", []⟩], [], []⟩

/-- A healthy environment whose generative service returns one candidate. -/
def envW : Env :=
  ⟨cfgW, true, true, .ok azureW,
   fun _ => .response "[\x7b\"question\": \"q\"\x7d]", fun _ => true⟩

/-- The same environment with a generative service that returns non-JSON text. -/
def envFailW : Env := { envW with llm := fun _ => .response "nope" }

def reqW : ExtractRequest := ⟨"a.PDF", none, some "S", none, none, some "u", none⟩

/-- A request that supplies `uploaded_by` through neither channel. -/
def reqNoUpW : ExtractRequest := ⟨"a.pdf", none, some "S", none, none, none, none⟩

/-! ## Supporting lemmas -/

theorem stripChars_idem (l : List Char) : stripChars (stripChars l) = stripChars l := by
  unfold stripChars
  have hdrop : (l.dropWhile Char.isWhitespace).dropWhile Char.isWhitespace
      = l.dropWhile Char.isWhitespace := List.dropWhile_idempotent _ _
  set m := l.dropWhile Char.isWhitespace with hm
  have hpre : m.rdropWhile Char.isWhitespace <+: m := List.rdropWhile_prefix _ _
  have hself : (m.rdropWhile Char.isWhitespace).dropWhile Char.isWhitespace
      = m.rdropWhile Char.isWhitespace := by
    rw [List.dropWhile_eq_self_iff]
    intro hl
    have hlen : 0 < m.length := lt_of_lt_of_le hl hpre.length_le
    have hm0 : ¬ (Char.isWhitespace (m.get ⟨0, hlen⟩)) := by
      have := List.dropWhile_eq_self_iff.mp hdrop
      exact this hlen
    have hget : (m.rdropWhile Char.isWhitespace).get ⟨0, hl⟩ = m.get ⟨0, hlen⟩ := by
      simpa using List.IsPrefix.getElem hpre hl
    rw [hget]
    exact hm0
  rw [hself, List.rdropWhile_idempotent]

theorem pyStrip_idem (s : String) : pyStrip (pyStrip s) = pyStrip s := by
  unfold pyStrip
  exact congrArg String.mk (stripChars_idem s.data)

theorem isPrefixOf_true_iff {l m : List Char} : l.isPrefixOf m = true ↔ l <+: m :=
  List.isPrefixOf_iff_prefix

theorem pyGet_dictSet_self (d : List (String × Json)) (k : String) (v : Json) :
    pyGet (dictSet d k v) k = v := by
  induction d with
  | nil => simp [dictSet, pyGet, List.find?]
  | cons p rest ih =>
    by_cases h : p.1 = k
    · simp [dictSet, h, pyGet, List.find?]
    · simp only [dictSet, if_neg h]
      simpa [pyGet, List.find?_cons, h] using ih

theorem pyGet_dictSet_ne (d : List (String × Json)) (k : String) (v : Json)
    (k' : String) (h : k' ≠ k) : pyGet (dictSet d k v) k' = pyGet d k' := by
  induction d with
  | nil => simp [dictSet, pyGet, List.find?, Ne.symm h]
  | cons p rest ih =>
    by_cases hp : p.1 = k
    · subst hp
      simp [dictSet, pyGet, List.find?_cons, Ne.symm h]
    · simp only [dictSet, if_neg hp]
      by_cases hp' : p.1 = k'
      · simp [pyGet, List.find?_cons, hp']
      · simpa [pyGet, List.find?_cons, hp'] using ih

theorem pageEffect_skip_iff (env : Env) (ctx : RunCtx) (idx : Nat) (page : PageEntry) :
    pageEffect env ctx idx page = .skip ↔ pyStrip page.content = "" := by
  unfold pageEffect
  by_cases hws : pyStrip page.content = ""
  · simp [hws]
  · simp only [if_neg hws]
    constructor
    · intro h
      exfalso
      revert h
      split <;> (try split) <;> (try split) <;> intro h <;> simp at h
    · intro h
      exact absurd h hws

theorem processPages_cons (env : Env) (ctx : RunCtx) (page : PageEntry)
    (rest : List PageEntry) (idx : Nat) (st : LoopState) :
    processPages env ctx (page :: rest) idx st =
      if effectOk (pageEffect env ctx idx page) then
        processPages env ctx rest (idx + 1) (applyEffect env ctx idx page st)
      else
        (applyEffect env ctx idx page st, effectError (pageEffect env ctx idx page)) := by
  cases h : pageEffect env ctx idx page <;>
    simp [processPages, h, applyEffect, effectOk, effectError]

theorem applyEffect_db (env : Env) (ctx : RunCtx) (i : Nat) (p : PageEntry)
    (st : LoopState) :
    (applyEffect env ctx i p st).db = st.db ++ effectBatch (pageEffect env ctx i p) := by
  cases h : pageEffect env ctx i p <;>
    simp [applyEffect, h, stSkip, stProcessed, stAttempt, stFailedExtract, effectBatch]

theorem applyEffect_calls (env : Env) (ctx : RunCtx) (i : Nat) (p : PageEntry)
    (st : LoopState) :
    (applyEffect env ctx i p st).calls = st.calls ++ (callsOf env (i, p)).toList := by
  cases h : pageEffect env ctx i p
  · have hws : pyStrip p.content = "" := (pageEffect_skip_iff env ctx i p).mp h
    simp [applyEffect, h, stSkip, callsOf, hws]
  all_goals {
    have hws : ¬ pyStrip p.content = "" := by
      intro hws
      rw [(pageEffect_skip_iff env ctx i p).mpr hws] at h
      simp at h
    cases hconf : env.openaiConfigured <;>
      simp [applyEffect, h, stProcessed, stAttempt, stFailedExtract, callsOf, hws, hconf]
  }

theorem applyEffect_skipped (env : Env) (ctx : RunCtx) (i : Nat) (p : PageEntry)
    (st : LoopState) :
    (applyEffect env ctx i p st).pages_skipped =
      st.pages_skipped + (if pyStrip p.content = "" then 1 else 0) := by
  cases h : pageEffect env ctx i p
  · have hws : pyStrip p.content = "" := (pageEffect_skip_iff env ctx i p).mp h
    simp [applyEffect, h, stSkip, hws]
  all_goals {
    have hws : ¬ pyStrip p.content = "" := by
      intro hws
      rw [(pageEffect_skip_iff env ctx i p).mpr hws] at h
      simp at h
    simp [applyEffect, h, stProcessed, stAttempt, stFailedExtract, hws]
  }

theorem applyEffect_attempted (env : Env) (ctx : RunCtx) (i : Nat) (p : PageEntry)
    (st : LoopState) :
    (applyEffect env ctx i p st).pages_attempted =
      st.pages_attempted + (if pyStrip p.content = "" then 0 else 1) := by
  cases h : pageEffect env ctx i p
  · have hws : pyStrip p.content = "" := (pageEffect_skip_iff env ctx i p).mp h
    simp [applyEffect, h, stSkip, hws]
  all_goals {
    have hws : ¬ pyStrip p.content = "" := by
      intro hws
      rw [(pageEffect_skip_iff env ctx i p).mpr hws] at h
      simp at h
    simp [applyEffect, h, stProcessed, stAttempt, stFailedExtract, hws]
  }

theorem applyEffect_total (env : Env) (ctx : RunCtx) (i : Nat) (p : PageEntry)
    (st : LoopState) :
    (applyEffect env ctx i p st).total_questions =
      st.total_questions + (effectBatch (pageEffect env ctx i p)).length := by
  cases h : pageEffect env ctx i p <;>
    simp [applyEffect, h, stSkip, stProcessed, stAttempt, stFailedExtract, effectBatch]

theorem applyEffect_sums (env : Env) (ctx : RunCtx) (i : Nat) (p : PageEntry)
    (st : LoopState) (hok : effectOk (pageEffect env ctx i p) = true) :
    (applyEffect env ctx i p st).page_summaries =
      st.page_summaries ++ [summaryOf env ctx (i, p)] := by
  cases h : pageEffect env ctx i p <;> rw [h] at hok <;> simp [effectOk] at hok <;>
    simp [applyEffect, h, stSkip, stProcessed, stAttempt, summaryOf]

theorem applyEffects_db (env : Env) (ctx : RunCtx) :
    ∀ (ps : List (Nat × PageEntry)) (st : LoopState),
    (applyEffects env ctx st ps).db = st.db ++ ps.flatMap (batchOf env ctx)
  | [], st => by simp [applyEffects]
  | ip :: ps, st => by
    rw [applyEffects, applyEffects_db env ctx ps, applyEffect_db]
    simp [batchOf]

theorem applyEffects_calls (env : Env) (ctx : RunCtx) :
    ∀ (ps : List (Nat × PageEntry)) (st : LoopState),
    (applyEffects env ctx st ps).calls = st.calls ++ ps.filterMap (callsOf env)
  | [], st => by simp [applyEffects]
  | ip :: ps, st => by
    rw [applyEffects, applyEffects_calls env ctx ps]
    rw [show (applyEffect env ctx ip.1 ip.2 st).calls
        = st.calls ++ (callsOf env (ip.1, ip.2)).toList from applyEffect_calls env ctx ip.1 ip.2 st]
    cases h : callsOf env (ip.1, ip.2) <;> simp [h, List.filterMap_cons]

theorem applyEffects_skipped (env : Env) (ctx : RunCtx) :
    ∀ (ps : List (Nat × PageEntry)) (st : LoopState),
    (applyEffects env ctx st ps).pages_skipped =
      st.pages_skipped + ps.countP (fun ip => pyStrip ip.2.content = "")
  | [], st => by simp [applyEffects]
  | ip :: ps, st => by
    rw [applyEffects, applyEffects_skipped env ctx ps, applyEffect_skipped]
    by_cases hws : pyStrip ip.2.content = "" <;>
      simp [List.countP_cons, hws, Nat.add_assoc, Nat.add_comm]

theorem applyEffects_attempted (env : Env) (ctx : RunCtx) :
    ∀ (ps : List (Nat × PageEntry)) (st : LoopState),
    (applyEffects env ctx st ps).pages_attempted =
      st.pages_attempted + ps.countP (fun ip => ¬ pyStrip ip.2.content = "")
  | [], st => by simp [applyEffects]
  | ip :: ps, st => by
    rw [applyEffects, applyEffects_attempted env ctx ps, applyEffect_attempted]
    by_cases hws : pyStrip ip.2.content = "" <;>
      simp [List.countP_cons, hws, Nat.add_assoc, Nat.add_comm]

theorem applyEffects_total (env : Env) (ctx : RunCtx) :
    ∀ (ps : List (Nat × PageEntry)) (st : LoopState),
    (applyEffects env ctx st ps).total_questions =
      st.total_questions + (ps.flatMap (batchOf env ctx)).length
  | [], st => by simp [applyEffects]
  | ip :: ps, st => by
    rw [applyEffects, applyEffects_total env ctx ps, applyEffect_total]
    simp [batchOf, Nat.add_assoc]

theorem applyEffects_sums (env : Env) (ctx : RunCtx) :
    ∀ (ps : List (Nat × PageEntry)) (st : LoopState),
    (∀ ip ∈ ps, effectOk (pageEffect env ctx ip.1 ip.2) = true) →
    (applyEffects env ctx st ps).page_summaries =
      st.page_summaries ++ ps.map (summaryOf env ctx)
  | [], st, _ => by simp [applyEffects]
  | ip :: ps, st, hok => by
    rw [applyEffects, applyEffects_sums env ctx ps _ (fun x hx => hok x (List.mem_cons_of_mem _ hx)),
      applyEffect_sums env ctx ip.1 ip.2 st (hok ip (List.mem_cons_self _ _))]
    simp

theorem processPages_of_ok (env : Env) (ctx : RunCtx) :
    ∀ (pages : List PageEntry) (idx : Nat) (st : LoopState),
    (∀ ip ∈ pageIdx idx pages, effectOk (pageEffect env ctx ip.1 ip.2) = true) →
    processPages env ctx pages idx st = (applyEffects env ctx st (pageIdx idx pages), none)
  | [], idx, st, _ => by simp [processPages, pageIdx, applyEffects]
  | page :: rest, idx, st, hok => by
    have h0 : effectOk (pageEffect env ctx idx page) = true :=
      hok (idx, page) (by simp [pageIdx])
    rw [processPages_cons, if_pos h0,
      processPages_of_ok env ctx rest (idx + 1) _
        (fun ip hip => hok ip (by simp [pageIdx, hip]))]
    simp [pageIdx, applyEffects]

theorem processPages_abort (env : Env) (ctx : RunCtx) :
    ∀ (pages : List PageEntry) (idx : Nat) (st : LoopState) (k : Nat) (hk : k < pages.length),
    (∀ j (hj : j < k), effectOk (pageEffect env ctx (idx + j)
      (pages.get ⟨j, Nat.lt_trans hj hk⟩)) = true) →
    effectOk (pageEffect env ctx (idx + k) (pages.get ⟨k, hk⟩)) = false →
    processPages env ctx pages idx st =
      (applyEffect env ctx (idx + k) (pages.get ⟨k, hk⟩)
         (applyEffects env ctx st (pageIdx idx (pages.take k))),
       effectError (pageEffect env ctx (idx + k) (pages.get ⟨k, hk⟩)))
  | [], _, _, k, hk, _, _ => absurd hk (by simp)
  | page :: rest, idx, st, 0, hk, _, hfail => by
    rw [processPages_cons, if_neg (by simpa using hfail)]
    simp [pageIdx, applyEffects]
  | page :: rest, idx, st, k + 1, hk, hpre, hfail => by
    have h0 : effectOk (pageEffect env ctx idx page) = true := by
      have := hpre 0 (Nat.succ_pos k)
      simpa using this
    rw [processPages_cons, if_pos h0]
    have ih := processPages_abort env ctx rest (idx + 1)
      (applyEffect env ctx idx page st) k (by simpa using Nat.lt_of_succ_lt_succ hk)
      (fun j hj => by
        have := hpre (j + 1) (Nat.succ_lt_succ hj)
        simpa [Nat.add_assoc, Nat.add_comm 1 j] using this)
      (by
        have heq : idx + 1 + k = idx + (k + 1) := by omega
        rw [heq]
        simpa using hfail)
    rw [ih]
    have heq : idx + 1 + k = idx + (k + 1) := by omega
    simp [pageIdx, applyEffects, heq]

theorem pageIdx_length : ∀ (ps : List PageEntry) (n : Nat), (pageIdx n ps).length = ps.length
  | [], _ => rfl
  | _ :: ps, n => by simp [pageIdx, pageIdx_length ps]

theorem pageIdx_getElem? :
    ∀ (ps : List PageEntry) (n j : Nat),
    (pageIdx n ps)[j]? = ps[j]?.map (fun p => (n + j, p))
  | [], n, j => by simp [pageIdx]
  | p :: ps, n, 0 => by simp [pageIdx]
  | p :: ps, n, j + 1 => by
    simp only [pageIdx, List.getElem?_cons_succ]
    rw [pageIdx_getElem? ps (n + 1) j]
    have heq : n + 1 + j = n + (j + 1) := by omega
    simp [heq]

theorem mem_pageIdx {ip : Nat × PageEntry} :
    ∀ {ps : List PageEntry} {n : Nat}, ip ∈ pageIdx n ps →
    ∃ j, ∃ h : j < ps.length, ip.1 = n + j ∧ ip.2 = ps.get ⟨j, h⟩ := by
  intro ps
  induction ps with
  | nil => intro n h; simp [pageIdx] at h
  | cons p rest ih =>
    intro n h
    rw [pageIdx, List.mem_cons] at h
    rcases h with h | h
    · exact ⟨0, by simp, by simp [h], by simp [h]⟩
    · rcases ih h with ⟨j, hj, h1, h2⟩
      refine ⟨j + 1, by simpa using Nat.succ_lt_succ hj, by omega, ?_⟩
      exact h2

theorem mapExcept_ok_mem {f : α → Except ε β} :
    ∀ {xs : List α} {ys : List β}, mapExcept f xs = .ok ys →
    ∀ y ∈ ys, ∃ x ∈ xs, f x = .ok y := by
  intro xs
  induction xs with
  | nil =>
    intro ys h y hy
    simp [mapExcept] at h
    subst h
    simp at hy
  | cons x rest ih =>
    intro ys h y hy
    rw [mapExcept] at h
    cases hfx : f x with
    | error e => rw [hfx] at h; cases h
    | ok z =>
      rw [hfx] at h
      cases hrest : mapExcept f rest with
      | error e => rw [hrest] at h; cases h
      | ok zs =>
        rw [hrest] at h
        cases h
        rcases List.mem_cons.mp hy with hy | hy
        · exact ⟨x, List.mem_cons_self _ _, hy ▸ hfx⟩
        · rcases ih hrest y hy with ⟨x', hx', hfx'⟩
          exact ⟨x', List.mem_cons_of_mem _ hx', hfx'⟩

theorem sanitizeCandidate_props {sc : StoreCtx} {q : List (String × Json)} {row : Question}
    (h : sanitizeCandidate sc q = .ok row) :
    row.question ≠ "" ∧ row.lesson_title ≠ "" ∧
    row.subject_name = sc.subject_name ∧ row.uploaded_by = sc.uploaded_by ∧
    row.updated_by = sc.updated_by ∧ row.file_name = sc.file_name ∧
    row.question_type = sanitizeEnum allowed_question_types (pyGet q "question_type") ∧
    row.question_difficulty = sanitizeEnum allowed_difficulties (pyGet q "question_difficulty") := by
  unfold sanitizeCandidate at h
  by_cases htext : (pyGet q "question").isNull = true ∨ pyStrip (pyStr (pyGet q "question")) = ""
  · rw [if_pos htext] at h
    cases h
  · rw [if_neg htext] at h
    push_neg at htext
    cases hlt : fieldOpt (pyGet q "lesson_title") with
    | none => rw [hlt] at h; cases h
    | some lt =>
      rw [hlt] at h
      cases h
      refine ⟨htext.2, ?_, rfl, rfl, rfl, rfl, rfl, rfl⟩
      unfold fieldOpt at hlt
      by_cases hc : pyTruthy (pyGet q "lesson_title") = true ∧
          pyStrip (pyStr (pyGet q "lesson_title")) ≠ ""
      · rw [if_pos hc] at hlt
        cases hlt
        exact hc.2
      · rw [if_neg hc] at hlt
        cases hlt

theorem sanitizeEnum_cases (allowed : List String) (raw : Json) :
    sanitizeEnum allowed raw = none ∨ sanitizeEnum allowed raw = some "" ∨
    ∃ t, sanitizeEnum allowed raw = some t ∧ t ∈ allowed := by
  unfold sanitizeEnum
  by_cases ht : pyTruthy raw = true
  · simp only [ht, if_true]
    by_cases he : pyStrip (pyStr raw) = ""
    · refine Or.inr (Or.inl ?_)
      simp [he]
    · by_cases hmem : pyStrip (pyStr raw) ∈ allowed
      · refine Or.inr (Or.inr ⟨pyStrip (pyStr raw), ?_, hmem⟩)
        simp [he, hmem]
      · refine Or.inl ?_
        simp [he, hmem]
  · simp [ht]

theorem store_ok_rows {cfg : Config} {ck : Bool} {qs : List (List (String × Json))}
    {fn : String} {subj cls spec up upd : Option String} {b : List Question}
    (h : store_questions_in_db cfg ck qs fn subj cls spec up upd = .ok b) :
    ∀ row ∈ b, ∃ sc : StoreCtx,
      resolveStoreCtx cfg fn subj cls spec up upd = .ok sc ∧
      ∃ q ∈ qs, sanitizeCandidate sc q = .ok row := by
  unfold store_questions_in_db at h
  split at h
  · cases h
    intro row hrow
    simp at hrow
  · split at h
    · cases h
    · rename_i sc hsc
      split at h
      · cases h
      · rename_i batch hbatch
        split at h
        · cases h
          intro row hrow
          exact ⟨sc, hsc, mapExcept_ok_mem hbatch row hrow⟩
        · cases h

theorem store_txn_components (cfg : Config) (db : List Question) (ck : Bool)
    (qs : List (List (String × Json))) (fn : String)
    (subj cls spec up upd : Option String) :
    (∃ b, store_questions_in_db cfg ck qs fn subj cls spec up upd = .ok b ∧
        store_txn cfg db ck qs fn subj cls spec up upd = (db ++ b, none)) ∨
    (∃ e, store_questions_in_db cfg ck qs fn subj cls spec up upd = .error e ∧
        store_txn cfg db ck qs fn subj cls spec up upd = (db, some e)) := by
  unfold store_txn
  cases h : store_questions_in_db cfg ck qs fn subj cls spec up upd with
  | ok b => exact Or.inl ⟨b, rfl, rfl⟩
  | error e => exact Or.inr ⟨e, rfl, rfl⟩

theorem countP_add_countP_not (p : α → Bool) :
    ∀ l : List α, l.countP p + l.countP (fun a => !(p a)) = l.length
  | [] => rfl
  | a :: l => by
    have ih := countP_add_countP_not p l
    cases h : p a <;> simp [List.countP_cons, h] <;> omega

theorem effectError_none_iff (e : PageEffect) :
    effectError e = none ↔ effectOk e = true := by
  cases e <;> simp [effectError, effectOk]

theorem processPages_none_ok (env : Env) (ctx : RunCtx) :
    ∀ (pages : List PageEntry) (idx : Nat) (st st' : LoopState),
    processPages env ctx pages idx st = (st', none) →
    (∀ ip ∈ pageIdx idx pages, effectOk (pageEffect env ctx ip.1 ip.2) = true) ∧
    st' = applyEffects env ctx st (pageIdx idx pages)
  | [], idx, st, st', h => by
    simp [processPages] at h
    simp [pageIdx, applyEffects, h]
  | page :: rest, idx, st, st', h => by
    rw [processPages_cons] at h
    by_cases hok : effectOk (pageEffect env ctx idx page) = true
    · rw [if_pos hok] at h
      rcases processPages_none_ok env ctx rest (idx + 1) _ st' h with ⟨hall, hst⟩
      constructor
      · intro ip hip
        rcases List.mem_cons.mp (show ip ∈ (idx, page) :: pageIdx (idx + 1) rest from hip)
          with hip | hip
        · rw [hip]
          exact hok
        · exact hall ip hip
      · rw [hst]
        rfl
    · rw [if_neg hok] at h
      have h2 := congrArg Prod.snd h
      simp only at h2
      rw [effectError_none_iff] at h2
      exact absurd h2 hok

theorem runExtract_eq (env : Env) (req : ExtractRequest)
    (hpdf : strEndsWith (pyLower req.filename) ".pdf" = true) :
    runExtract env req =
      { response := (runBody env req).1
        db := (runBody env req).2.1
        calls := (runBody env req).2.2.1
        summaries := (runBody env req).2.2.2
        scratchCreated := true
        cleanupScheduled := true } := by
  unfold runExtract
  rw [if_neg (by simp [hpdf])]
  rcases hr : runBody env req with ⟨resp, db, calls, sums⟩
  cases resp <;> simp

theorem runBody_ok (env : Env) (req : ExtractRequest) (ctx : RunCtx) (r : AzureResult)
    (st : LoopState)
    (hctx : resolveCtx req = .ok ctx) (hconf : env.azureConfigured = true)
    (haz : env.azure = .ok r)
    (hne : (assembleLayout r).pages.isEmpty = false)
    (hloop : processPages env ctx (assembleLayout r).pages 0 initState = (st, none)) :
    runBody env req =
      (.ok { total_pages_detected :=
               if (assembleLayout r).page_count ≠ 0 then (assembleLayout r).page_count
               else (assembleLayout r).pages.length
             pages_with_content := st.pages_attempted
             pages_skipped := st.pages_skipped
             questions_stored := st.total_questions
             pages := st.page_summaries },
       st.db, st.calls, st.page_summaries) := by
  have hmd : extract_markdown_from_pdf_azure env.azureConfigured env.azure
      = .ok (assembleLayout r) := by
    simp [extract_markdown_from_pdf_azure, hconf, haz]
  unfold runBody
  rw [hctx, hmd]
  simp only [hne, Bool.false_eq_true, if_false, hloop]

theorem runBody_err (env : Env) (req : ExtractRequest) (ctx : RunCtx) (r : AzureResult)
    (st : LoopState) (e : HTTPError)
    (hctx : resolveCtx req = .ok ctx) (hconf : env.azureConfigured = true)
    (haz : env.azure = .ok r)
    (hne : (assembleLayout r).pages.isEmpty = false)
    (hloop : processPages env ctx (assembleLayout r).pages 0 initState = (st, some e)) :
    runBody env req = (.error e, st.db, st.calls, st.page_summaries) := by
  have hmd : extract_markdown_from_pdf_azure env.azureConfigured env.azure
      = .ok (assembleLayout r) := by
    simp [extract_markdown_from_pdf_azure, hconf, haz]
  unfold runBody
  rw [hctx, hmd]
  simp only [hne, Bool.false_eq_true, if_false, hloop]

/-- On the successful path the total-page count always equals the length of
the page list, because `extract_markdown_from_pdf_azure` returns
`page_count = len(pages)`. -/
theorem assembleLayout_total (r : AzureResult) :
    (if (assembleLayout r).page_count ≠ 0 then (assembleLayout r).page_count
     else (assembleLayout r).pages.length) = (assembleLayout r).pages.length := by
  by_cases h : (assembleLayout r).page_count ≠ 0 <;>
    simp [h, assembleLayout]

theorem pyGet_eraseOptionKeys (q : List (String × Json)) (k : String)
    (h : ¬ k ∈ optionKeys) : pyGet (eraseOptionKeys q) k = pyGet q k := by
  induction q with
  | nil => rfl
  | cons p rest ih =>
    by_cases hp : p.1 ∈ optionKeys
    · have hne : ¬ (p.1 = k) := fun he => h (he ▸ hp)
      have h1 : eraseOptionKeys (p :: rest) = eraseOptionKeys rest := by
        simp [eraseOptionKeys, List.filter_cons, hp]
      rw [h1, ih]
      simp [pyGet, List.find?_cons, hne]
    · have h1 : eraseOptionKeys (p :: rest) = p :: eraseOptionKeys rest := by
        simp [eraseOptionKeys, List.filter_cons, hp]
      rw [h1]
      by_cases hk : p.1 = k
      · simp [pyGet, List.find?_cons, hk]
      · simpa [pyGet, List.find?_cons, hk] using ih

theorem sanitizeCandidate_erase_options (sc : StoreCtx) (q : List (String × Json)) :
    sanitizeCandidate sc (eraseOptionKeys q) = sanitizeCandidate sc q := by
  have h1 := pyGet_eraseOptionKeys q "question" (by decide)
  have h2 := pyGet_eraseOptionKeys q "question_type" (by decide)
  have h3 := pyGet_eraseOptionKeys q "question_difficulty" (by decide)
  have h4 := pyGet_eraseOptionKeys q "page_number" (by decide)
  have h5 := pyGet_eraseOptionKeys q "answer_steps" (by decide)
  have h6 := pyGet_eraseOptionKeys q "correct_answer" (by decide)
  have h7 := pyGet_eraseOptionKeys q "lesson_title" (by decide)
  unfold sanitizeCandidate
  rw [h1, h2, h3, h4, h5, h6, h7]

theorem processPages_db_mem (env : Env) (ctx : RunCtx) (P : Question → Prop)
    (hbatch : ∀ idx p b, pageEffect env ctx idx p = .processed b → ∀ q ∈ b, P q) :
    ∀ (pages : List PageEntry) (idx : Nat) (st : LoopState),
    (∀ q ∈ st.db, P q) →
    ∀ q ∈ (processPages env ctx pages idx st).1.db, P q
  | [], idx, st, hst => by simpa [processPages] using hst
  | page :: rest, idx, st, hst => by
    have hstep : ∀ q ∈ (applyEffect env ctx idx page st).db, P q := by
      intro q hq
      rw [applyEffect_db] at hq
      rcases List.mem_append.mp hq with hq | hq
      · exact hst q hq
      · cases heff : pageEffect env ctx idx page with
        | processed bb =>
          rw [heff] at hq
          exact hbatch idx page bb heff q hq
        | skip => rw [heff] at hq; simp [effectBatch] at hq
        | failedExtract e => rw [heff] at hq; simp [effectBatch] at hq
        | failedLate e => rw [heff] at hq; simp [effectBatch] at hq
    rw [processPages_cons]
    by_cases hok : effectOk (pageEffect env ctx idx page) = true
    · rw [if_pos hok]
      exact processPages_db_mem env ctx P hbatch rest (idx + 1) _ hstep
    · rw [if_neg hok]
      exact hstep

theorem resolveField_some {form : Option String} {md : List (String × Json)}
    {key s : String} (h : resolveField form md key = some s) :
    pyStrip s = s ∧ s ≠ "" := by
  have h' : ∃ s0 : String,
      (if pyStrip s0 = "" then (none : Option String) else some (pyStrip s0)) = some s := by
    cases form with
    | some s0 => exact ⟨s0, h⟩
    | none =>
      unfold resolveField at h
      cases hg : pyGet md key with
      | str s0 => rw [hg] at h; exact ⟨s0, h⟩
      | null => rw [hg] at h; cases h
      | bool b => rw [hg] at h; cases h
      | num n => rw [hg] at h; cases h
      | arr items => rw [hg] at h; cases h
      | obj fields => rw [hg] at h; cases h
  rcases h' with ⟨s0, h'⟩
  by_cases hb : pyStrip s0 = ""
  · rw [if_pos hb] at h'
    cases h'
  · rw [if_neg hb] at h'
    cases h'
    exact ⟨pyStrip_idem s0, hb⟩

theorem runBody_resolve_err (env : Env) (req : ExtractRequest) (e : HTTPError)
    (h : resolveCtx req = .error e) : runBody env req = (.error e, [], [], []) := by
  unfold runBody
  rw [h]

theorem resolveCtx_uploaded_missing (req : ExtractRequest)
    (hmd : metaWellFormed req)
    (hsub : resolveField req.subject_name (requestMeta req) "subject_name" ≠ none)
    (hup : resolveField req.uploaded_by (requestMeta req) "uploaded_by" = none) :
    resolveCtx req = .error ⟨400, "uploaded_by is required."⟩ := by
  unfold resolveCtx
  cases hm : req.metadata with
  | none =>
    rw [show requestMeta req = [] from by simp [requestMeta, hm]] at hsub hup
    cases hs : resolveField req.subject_name [] "subject_name" with
    | none => exact absurd hs hsub
    | some s => simp [hs, hup]
  | some blob =>
    cases blob with
    | malformed msg =>
      exfalso
      unfold metaWellFormed at hmd
      rw [hm] at hmd
      exact hmd
    | parsed v =>
      rw [show requestMeta req = v from by simp [requestMeta, hm]] at hsub hup
      cases hs : resolveField req.subject_name v "subject_name" with
      | none => exact absurd hs hsub
      | some s => simp [hs, hup]

theorem resolveStoreCtx_uploaded_default {cfg : Config} {fn : String}
    {subj cls spec upd : Option String} {sc : StoreCtx}
    (h : resolveStoreCtx cfg fn subj cls spec none upd = .ok sc) :
    sc.uploaded_by = pyStrip cfg.default_uploaded_by := by
  unfold resolveStoreCtx at h
  split at h
  · cases h
  · split at h
    · cases h
    · rename_i sv hsv
      by_cases hd : pyStrip cfg.default_uploaded_by = ""
      · simp [normStr, hd] at h
      · simp [normStr, hd] at h
        subst h
        rfl

theorem sanitizeEnum_not_truthy {allowed : List String} {raw : Json}
    (h : pyTruthy raw = false) : sanitizeEnum allowed raw = none := by
  simp [sanitizeEnum, h]

theorem sanitizeEnum_unrecognized {allowed : List String} {raw : Json}
    (h1 : pyStrip (pyStr raw) ≠ "") (h2 : pyStrip (pyStr raw) ∉ allowed) :
    sanitizeEnum allowed raw = none := by
  unfold sanitizeEnum
  by_cases ht : pyTruthy raw = true
  · simp [ht, h1, h2]
  · simp [ht]

theorem sanitizeCandidate_isOk_eq (sc : StoreCtx) (q1 q2 : List (String × Json))
    (hq : pyGet q1 "question" = pyGet q2 "question")
    (hl : pyGet q1 "lesson_title" = pyGet q2 "lesson_title") :
    (sanitizeCandidate sc q1).isOk = (sanitizeCandidate sc q2).isOk := by
  unfold sanitizeCandidate
  rw [hq, hl]
  by_cases hc : (pyGet q2 "question").isNull = true ∨ pyStrip (pyStr (pyGet q2 "question")) = ""
  · simp [hc]
  · simp only [hc, if_false]
    cases fieldOpt (pyGet q2 "lesson_title") <;> rfl

theorem strStartsWith_fence_of_json {s : String}
    (h : strStartsWith s "```json" = true) : strStartsWith s "```" = true := by
  unfold strStartsWith at h ⊢
  rw [isPrefixOf_true_iff] at h ⊢
  have h3 : ("```".data) <+: ("```json".data) := by
    rw [show ("```json".data) = ("```".data) ++ ['j', 's', 'o', 'n'] from rfl]
    exact List.prefix_append _ _
  exact h3.trans h

theorem stripCodeFence_json_wrapped (mid : String) :
    stripCodeFence ("```json" ++ mid ++ "```") = pyStrip mid := by
  have hpre : strStartsWith ("```json" ++ mid ++ "```") "```json" = true := by
    unfold strStartsWith
    rw [isPrefixOf_true_iff, String.data_append, String.data_append]
    exact List.prefix_append _ _
  have h1 : strDrop ("```json" ++ mid ++ "```") 7 = ⟨mid.data ++ "```".data⟩ := by
    unfold strDrop
    rw [String.data_append, String.data_append]
    congr 1
  have h2 : strDropRight ⟨mid.data ++ "```".data⟩ 3 = mid := by
    unfold strDropRight
    show String.mk ((mid.data ++ "```".data).rdrop 3) = mid
    rw [List.rdrop, show (mid.data ++ "```".data).length - 3 = mid.data.length from by
      simp]
    rw [List.take_left]
  simp only [stripCodeFence, hpre, if_true]
  rw [h1, h2]

theorem stripCodeFence_fence_wrapped (mid : String)
    (hjson : strStartsWith ("```" ++ mid ++ "```") "```json" = false) :
    stripCodeFence ("```" ++ mid ++ "```") = pyStrip mid := by
  have hpre : strStartsWith ("```" ++ mid ++ "```") "```" = true := by
    unfold strStartsWith
    rw [isPrefixOf_true_iff, String.data_append, String.data_append]
    exact List.prefix_append _ _
  have h1 : strDrop ("```" ++ mid ++ "```") 3 = ⟨mid.data ++ "```".data⟩ := by
    unfold strDrop
    rw [String.data_append, String.data_append]
    congr 1
  have h2 : strDropRight ⟨mid.data ++ "```".data⟩ 3 = mid := by
    unfold strDropRight
    show String.mk ((mid.data ++ "```".data).rdrop 3) = mid
    rw [List.rdrop, show (mid.data ++ "```".data).length - 3 = mid.data.length from by
      simp]
    rw [List.take_left]
  simp only [stripCodeFence, hjson, hpre, Bool.false_eq_true, if_false, if_true]
  rw [h1, h2]

theorem stripCodeFence_json_prefix (mid : String) :
    stripCodeFence ("```json" ++ mid) = pyStrip (strDropRight mid 3) := by
  have hpre : strStartsWith ("```json" ++ mid) "```json" = true := by
    unfold strStartsWith
    rw [isPrefixOf_true_iff, String.data_append]
    exact List.prefix_append _ _
  have h1 : strDrop ("```json" ++ mid) 7 = mid := by
    unfold strDrop
    rw [String.data_append]
    congr 1
  simp only [stripCodeFence, hpre, if_true]
  rw [h1]

theorem stripCodeFence_fence_prefix (mid : String)
    (hjson : strStartsWith ("```" ++ mid) "```json" = false) :
    stripCodeFence ("```" ++ mid) = pyStrip (strDropRight mid 3) := by
  have hpre : strStartsWith ("```" ++ mid) "```" = true := by
    unfold strStartsWith
    rw [isPrefixOf_true_iff, String.data_append]
    exact List.prefix_append _ _
  have h1 : strDrop ("```" ++ mid) 3 = mid := by
    unfold strDrop
    rw [String.data_append]
    congr 1
  simp only [stripCodeFence, hjson, hpre, Bool.false_eq_true, if_false, if_true]
  rw [h1]

theorem stripCodeFence_unfenced {s : String}
    (h : strStartsWith s "```" = false) : stripCodeFence s = s := by
  have hj : strStartsWith s "```json" = false := by
    cases hj : strStartsWith s "```json"
    · rfl
    · exact absurd (strStartsWith_fence_of_json hj) (by simp [h])
  simp [stripCodeFence, hj, h]

theorem summaryOf_skip_iff (env : Env) (ctx : RunCtx) (ip : Nat × PageEntry) :
    (summaryOf env ctx ip).status = "skipped_empty_content" ↔
    pyStrip ip.2.content = "" := by
  unfold summaryOf
  cases heff : pageEffect env ctx ip.1 ip.2 with
  | skip =>
    have hws := (pageEffect_skip_iff env ctx ip.1 ip.2).mp heff
    exact ⟨fun _ => hws, fun _ => rfl⟩
  | processed b =>
    have hws : ¬ pyStrip ip.2.content = "" := by
      intro hws2
      rw [(pageEffect_skip_iff env ctx ip.1 ip.2).mpr hws2] at heff
      cases heff
    refine ⟨fun hst => ?_, fun h2 => absurd h2 hws⟩
    replace hst : (if b.length ≠ 0 then "processed" else "processed_no_questions")
        = "skipped_empty_content" := hst
    by_cases hb : b.length ≠ 0
    · rw [if_pos hb] at hst
      exact absurd hst (by decide)
    · rw [if_neg hb] at hst
      exact absurd hst (by decide)
  | failedExtract e =>
    have hws : ¬ pyStrip ip.2.content = "" := by
      intro hws2
      rw [(pageEffect_skip_iff env ctx ip.1 ip.2).mpr hws2] at heff
      cases heff
    refine ⟨fun hst => ?_, fun h2 => absurd h2 hws⟩
    replace hst : "failed" = "skipped_empty_content" := hst
    exact absurd hst (by decide)
  | failedLate e =>
    have hws : ¬ pyStrip ip.2.content = "" := by
      intro hws2
      rw [(pageEffect_skip_iff env ctx ip.1 ip.2).mpr hws2] at heff
      cases heff
    refine ⟨fun hst => ?_, fun h2 => absurd h2 hws⟩
    replace hst : "" = "skipped_empty_content" := hst
    exact absurd hst (by decide)

theorem pageIdx_countP (f : PageEntry → Bool) :
    ∀ (ps : List PageEntry) (n : Nat),
    (pageIdx n ps).countP (fun ip => f ip.2) = ps.countP f
  | [], _ => rfl
  | p :: ps, n => by
    simp [pageIdx, List.countP_cons, pageIdx_countP f ps]

theorem extract_error_of_shape {t : String}
    (hparse : isArrayOfObjects (json_loads (stripCodeFence (pyStrip t))) = false) :
    ∃ e : HTTPError,
      extract_questions_from_markdown true (.response t) = .error e := by
  unfold extract_questions_from_markdown
  cases hj : json_loads (stripCodeFence (pyStrip t)) with
  | none =>
    refine ⟨⟨500, "OpenAI extraction failed: invalid JSON"⟩, ?_⟩
    simp [hj]
  | some j =>
    cases j with
    | arr items =>
      rw [hj] at hparse
      replace hparse : items.all Json.isObj = false := hparse
      refine ⟨⟨500, "OpenAI extraction failed: Each question entry must be a JSON object."⟩, ?_⟩
      simp [hj, hparse]
    | null =>
      refine ⟨⟨500, "OpenAI extraction failed: Expected a list of questions in JSON array."⟩, ?_⟩
      simp [hj]
    | bool b =>
      refine ⟨⟨500, "OpenAI extraction failed: Expected a list of questions in JSON array."⟩, ?_⟩
      simp [hj]
    | num n =>
      refine ⟨⟨500, "OpenAI extraction failed: Expected a list of questions in JSON array."⟩, ?_⟩
      simp [hj]
    | str s =>
      refine ⟨⟨500, "OpenAI extraction failed: Expected a list of questions in JSON array."⟩, ?_⟩
      simp [hj]
    | obj fields =>
      refine ⟨⟨500, "OpenAI extraction failed: Expected a list of questions in JSON array."⟩, ?_⟩
      simp [hj]

theorem pageEffect_failedExtract {env : Env} {ctx : RunCtx} {idx : Nat}
    {page : PageEntry} {e : HTTPError}
    (hws : ¬ pyStrip page.content = "")
    (hx : extract_questions_from_markdown env.openaiConfigured (env.llm idx) = .error e) :
    pageEffect env ctx idx page = .failedExtract e := by
  unfold pageEffect
  rw [if_neg hws, hx]

theorem pageEffect_processed_store {env : Env} {ctx : RunCtx} {idx : Nat}
    {page : PageEntry} {b : List Question}
    (h : pageEffect env ctx idx page = .processed b) :
    ∃ sanitized, store_questions_in_db env.cfg (env.commitOk idx) sanitized
      ctx.file_name (some ctx.subject_name) ctx.class_name ctx.specialization
      (some ctx.uploaded_by) ctx.updated_by = .ok b := by
  unfold pageEffect at h
  split at h
  · cases h
  · split at h
    · cases h
    · split at h
      · cases h
      · rename_i sanitized hsan
        split at h
        · rename_i b2 hstore
          cases h
          exact ⟨sanitized, hstore⟩
        · cases h

theorem sanitizeCandidate_lesson {sc : StoreCtx} {q : List (String × Json)}
    {row : Question} (h : sanitizeCandidate sc q = .ok row) :
    fieldOpt (pyGet q "lesson_title") = some row.lesson_title := by
  unfold sanitizeCandidate at h
  by_cases hc : (pyGet q "question").isNull = true ∨ pyStrip (pyStr (pyGet q "question")) = ""
  · rw [if_pos hc] at h
    cases h
  · rw [if_neg hc] at h
    cases hlt : fieldOpt (pyGet q "lesson_title") with
    | none => rw [hlt] at h; cases h
    | some lt => rw [hlt] at h; cases h; rfl

theorem pyGet_setContextFields_lesson (ctx : RunCtx) (pn : Nat)
    (fields : List (String × Json)) :
    pyGet (setContextFields ctx pn fields) "lesson_title" =
    pyGet fields "lesson_title" := by
  unfold setContextFields
  rw [pyGet_dictSet_ne _ _ _ _ (by decide), pyGet_dictSet_ne _ _ _ _ (by decide),
    pyGet_dictSet_ne _ _ _ _ (by decide), pyGet_dictSet_ne _ _ _ _ (by decide),
    pyGet_dictSet_ne _ _ _ _ (by decide), pyGet_dictSet_ne _ _ _ _ (by decide)]

theorem pyGet_setOptField_ne (d : List (String × Json)) (key key' : String)
    (h : key' ≠ key) : pyGet (setOptField d key) key' = pyGet d key' := by
  unfold setOptField
  by_cases hv : (pyGet d key).isNull = true
  · rw [if_pos hv]
  · rw [if_neg hv]
    exact pyGet_dictSet_ne _ _ _ _ h

theorem pyGet_setLessonTitle_default (ctx : RunCtx) (d : List (String × Json))
    (hmiss : (pyGet d "lesson_title").isNull = true ∨
      pyStrip (pyStr (pyGet d "lesson_title")) = "") :
    pyGet (setLessonTitle ctx d) "lesson_title" = .str ctx.subject_name := by
  unfold setLessonTitle
  rw [if_pos hmiss]
  exact pyGet_dictSet_self _ _ _

theorem normalizeQuestion_lesson {ctx : RunCtx} {pn : Nat}
    {fields d : List (String × Json)}
    (h : normalizeQuestion ctx pn (.obj fields) = .ok d)
    (hmiss : (pyGet fields "lesson_title").isNull = true ∨
      pyStrip (pyStr (pyGet fields "lesson_title")) = "") :
    pyGet d "lesson_title" = .str ctx.subject_name := by
  unfold normalizeQuestion at h
  cases h
  rw [pyGet_setOptField_ne _ _ _ (by decide), pyGet_setOptField_ne _ _ _ (by decide)]
  apply pyGet_setLessonTitle_default
  rw [pyGet_setContextFields_lesson]
  exact hmiss

theorem resolveCtx_ok_subject {req : ExtractRequest} {ctx : RunCtx}
    (h : resolveCtx req = .ok ctx) :
    pyStrip ctx.subject_name = ctx.subject_name ∧ ctx.subject_name ≠ "" := by
  unfold resolveCtx at h
  have hmain : ∀ md : List (String × Json),
      (match resolveField req.subject_name md "subject_name" with
        | none => (.error ⟨400, "subject_name is required."⟩ : Except HTTPError RunCtx)
        | some subject_name_value =>
          match resolveField req.uploaded_by md "uploaded_by" with
          | none => .error ⟨400, "uploaded_by is required."⟩
          | some uploaded_by_value =>
            .ok ⟨req.filename, subject_name_value,
                 resolveField req.class_name md "class_name",
                 resolveField req.specialization md "specialization",
                 uploaded_by_value, resolveField req.updated_by md "updated_by"⟩)
        = .ok ctx →
      pyStrip ctx.subject_name = ctx.subject_name ∧ ctx.subject_name ≠ "" := by
    intro md hm
    cases hs : resolveField req.subject_name md "subject_name" with
    | none => rw [hs] at hm; cases hm
    | some s =>
      rw [hs] at hm
      cases hu : resolveField req.uploaded_by md "uploaded_by" with
      | none => rw [hu] at hm; cases hm
      | some u =>
        rw [hu] at hm
        cases hm
        exact resolveField_some hs
  cases hmd : req.metadata with
  | none =>
    rw [hmd] at h
    exact hmain [] h
  | some blob =>
    cases blob with
    | malformed msg => rw [hmd] at h; cases h
    | parsed v =>
      rw [hmd] at h
      exact hmain v h

theorem runBody_db_cases (env : Env) (req : ExtractRequest) :
    (runBody env req).2.1 = [] ∨
    ∃ (ctx : RunCtx) (pages : List PageEntry) (st : LoopState)
      (err : Option HTTPError),
      processPages env ctx pages 0 initState = (st, err) ∧
      (runBody env req).2.1 = st.db := by
  unfold runBody
  cases hctx : resolveCtx req with
  | error e => exact Or.inl rfl
  | ok ctx =>
    cases hmd : extract_markdown_from_pdf_azure env.azureConfigured env.azure with
    | error e => exact Or.inl rfl
    | ok layout =>
      by_cases hne : layout.pages.isEmpty = true
      · simp only [hne, if_true]
        exact Or.inl trivial
      · rcases hloop : processPages env ctx layout.pages 0 initState with ⟨st, err⟩
        refine Or.inr ⟨ctx, layout.pages, st, err, hloop, ?_⟩
        simp only [hne, Bool.false_eq_true, if_false, hloop]
        cases err <;> rfl

theorem runBody_layout_err (env : Env) (req : ExtractRequest) (ctx : RunCtx)
    (e : HTTPError) (hctx : resolveCtx req = .ok ctx)
    (hmd : extract_markdown_from_pdf_azure env.azureConfigured env.azure = .error e) :
    runBody env req = (.error e, [], [], []) := by
  unfold runBody
  rw [hctx, hmd]

theorem runBody_no_pages (env : Env) (req : ExtractRequest) (ctx : RunCtx)
    (layout : LayoutResult) (hctx : resolveCtx req = .ok ctx)
    (hmd : extract_markdown_from_pdf_azure env.azureConfigured env.azure = .ok layout)
    (hne : layout.pages.isEmpty = true) :
    runBody env req =
      (.error ⟨500, "Azure Document Intelligence did not return any pages."⟩,
       [], [], []) := by
  unfold runBody
  rw [hctx, hmd]
  simp [hne]

theorem run_success_decompose (env : Env) (req : ExtractRequest) (s : Summary)
    (h : (runExtract env req).response = .ok s) :
    ∃ (ctx : RunCtx) (r : AzureResult) (st : LoopState),
      resolveCtx req = .ok ctx ∧
      env.azureConfigured = true ∧
      env.azure = .ok r ∧
      (assembleLayout r).pages.isEmpty = false ∧
      processPages env ctx (assembleLayout r).pages 0 initState = (st, none) ∧
      strEndsWith (pyLower req.filename) ".pdf" = true ∧
      (runExtract env req).db = st.db ∧
      (runExtract env req).calls = st.calls ∧
      s = { total_pages_detected := (assembleLayout r).pages.length
            pages_with_content := st.pages_attempted
            pages_skipped := st.pages_skipped
            questions_stored := st.total_questions
            pages := st.page_summaries } := by
  by_cases hpdf : strEndsWith (pyLower req.filename) ".pdf" = true
  case neg =>
    exfalso
    unfold runExtract at h
    rw [if_pos (by simpa using hpdf)] at h
    simp at h
  case pos =>
    rw [runExtract_eq env req hpdf] at h
    simp only at h
    cases hctx : resolveCtx req with
    | error e =>
      rw [runBody_resolve_err env req e hctx] at h
      simp at h
    | ok ctx =>
      cases hconf : env.azureConfigured with
      | false =>
        rw [runBody_layout_err env req ctx
          ⟨503, "Azure Document Intelligence client not configured. Please set AZURE_DOC_INTELLIGENCE_ENDPOINT and AZURE_DOC_INTELLIGENCE_KEY."⟩ hctx
          (by simp [extract_markdown_from_pdf_azure, hconf])] at h
        simp at h
      | true =>
        cases haz : env.azure with
        | error msg =>
          rw [runBody_layout_err env req ctx
            ⟨500, "Azure extraction failed: " ++ msg⟩ hctx
            (by simp [extract_markdown_from_pdf_azure, hconf, haz])] at h
          simp at h
        | ok r =>
          have hmd : extract_markdown_from_pdf_azure env.azureConfigured env.azure
              = .ok (assembleLayout r) := by
            simp [extract_markdown_from_pdf_azure, hconf, haz]
          cases hne : (assembleLayout r).pages.isEmpty with
          | true =>
            rw [runBody_no_pages env req ctx _ hctx hmd hne] at h
            simp at h
          | false =>
            rcases hloop : processPages env ctx (assembleLayout r).pages 0 initState
              with ⟨st, err⟩
            cases err with
            | some e =>
              rw [runBody_err env req ctx r st e hctx hconf haz hne hloop] at h
              simp at h
            | none =>
              rw [runBody_ok env req ctx r st hctx hconf haz hne hloop] at h
              simp only [Except.ok.injEq] at h
              refine ⟨ctx, r, st, rfl, rfl, rfl, hne, hloop, hpdf, ?_, ?_, ?_⟩
              · rw [runExtract_eq env req hpdf,
                  runBody_ok env req ctx r st hctx hconf haz hne hloop]
              · rw [runExtract_eq env req hpdf,
                  runBody_ok env req ctx r st hctx hconf haz hne hloop]
              · rw [← h, assembleLayout_total]

/-! ## The claims -/

/-- C1 (code bug): the pipeline computes `option1`..`option6` from each
candidate (lines 459-464) and passes them to the `Question(...)` constructor
(lines 482-487), but the `Question` SQLModel in `models.py` declares no option
columns, so the options never reach the persisted row: sanitization is
invariant under erasing all option fields from the candidate, and the concrete
candidate carrying `option1`/`option2` is persisted as a row with no option
data — although the repository's own migration script
(`migrate_add_options.py`) and feature tests (`test_options_feature.py`)
expect the six option columns to be populated. -/
theorem c1_options_not_persisted :
    (∀ (sc : StoreCtx) (q : List (String × Json)),
      sanitizeCandidate sc (eraseOptionKeys q) = sanitizeCandidate sc q) ∧
    candidateOptions [("question", Json.str "q"), ("lesson_title", Json.str "L"),
        ("option1", Json.str " A) 42 "), ("option2", Json.str "B")] =
      [some "A) 42", some "B", none, none, none, none] ∧
    store_questions_in_db cfgW true
        [[("question", Json.str "q"), ("lesson_title", Json.str "L"),
          ("option1", Json.str " A) 42 "), ("option2", Json.str "B")]]
        "f.pdf" (some "S") none none (some "u") none =
      .ok [⟨"f.pdf", "S", "L", none, none, "q", none, none, none, none, none, "u", none⟩] :=
  ⟨sanitizeCandidate_erase_options, by rfl, by rfl⟩

/-- C8: the persistence writer commits one page's batch as a single unit: the
store either gains the entire sanitized batch or is left unchanged (never a
proper subset), and a commit failure rolls the batch back and raises the
500 persistence error. -/
theorem c8_batch_commit_atomic (cfg : Config) (db : List Question) (ck : Bool)
    (qs : List (List (String × Json))) (fn : String)
    (subj cls spec up upd : Option String) :
    ((∃ b, store_questions_in_db cfg ck qs fn subj cls spec up upd = .ok b ∧
        store_txn cfg db ck qs fn subj cls spec up upd = (db ++ b, none)) ∨
      (∃ e, store_txn cfg db ck qs fn subj cls spec up upd = (db, some e))) ∧
    (∀ (sc : StoreCtx) (batch : List Question),
      qs.isEmpty = false →
      resolveStoreCtx cfg fn subj cls spec up upd = .ok sc →
      sanitizeBatch sc qs = .ok batch →
      ck = false →
      store_txn cfg db ck qs fn subj cls spec up upd =
        (db, some ⟨500, "Failed to persist questions to database."⟩)) := by
  constructor
  · rcases store_txn_components cfg db ck qs fn subj cls spec up upd with
      ⟨b, hb, htxn⟩ | ⟨e, _, htxn⟩
    · exact Or.inl ⟨b, hb, htxn⟩
    · exact Or.inr ⟨e, htxn⟩
  · intro sc batch hqs hsc hbatch hck
    subst hck
    unfold store_txn store_questions_in_db
    simp [hqs, hsc, hbatch]

/-- C8 witness: a concrete one-candidate batch whose commit fails is rolled
back, leaving the store unchanged and raising the persistence error. -/
theorem c8_batch_commit_atomic_witness :
    store_txn cfgW [] false
        [[("question", Json.str "q"), ("lesson_title", Json.str "L")]]
        "f.pdf" (some "S") none none (some "u") none =
      ([], some ⟨500, "Failed to persist questions to database."⟩) :=
  (c8_batch_commit_atomic cfgW [] false
      [[("question", Json.str "q"), ("lesson_title", Json.str "L")]]
      "f.pdf" (some "S") none none (some "u") none).2
    ⟨"f.pdf", "S", none, none, "u", none⟩
    [⟨"f.pdf", "S", "L", none, none, "q", none, none, none, none, none, "u", none⟩]
    rfl rfl rfl rfl

/-- C10: whenever the scratch directory is created (every request whose
filename passes the PDF check, which precedes scratch creation), the deferred
cleanup task is scheduled on every exit path — success, validation failure and
mid-pipeline failure alike; the only run without a cleanup is the pre-scratch
non-PDF rejection, which creates no scratch directory. -/
theorem c10_cleanup_always_scheduled (env : Env) (req : ExtractRequest) :
    ((runExtract env req).scratchCreated = true →
      (runExtract env req).cleanupScheduled = true) ∧
    ((runExtract env req).scratchCreated = false →
      (runExtract env req).response = .error ⟨400, "Only PDF files are supported."⟩) := by
  unfold runExtract
  by_cases hpdf : strEndsWith (pyLower req.filename) ".pdf" = true
  · rw [if_neg (by simp [hpdf])]
    rcases runBody env req with ⟨resp, db, calls, sums⟩
    cases resp <;> simp
  · rw [if_pos (by simpa using hpdf)]
    simp

/-- C10 witness: a concrete run that creates the scratch directory has the
cleanup scheduled. -/
theorem c10_cleanup_always_scheduled_witness :
    (runExtract envW reqW).scratchCreated = true ∧
    (runExtract envW reqW).cleanupScheduled = true :=
  ⟨rfl, (c10_cleanup_always_scheduled envW reqW).1 rfl⟩

/-- C2 counterexample: a request that supplies `uploaded_by` through neither
the form field nor the metadata blob is rejected with
400 "uploaded_by is required." before any page is processed — it does not
resolve to the configured default ("system" here) and proceed, refuting the
claim at this input. -/
theorem c2_counterexample :
    (runExtract envW reqNoUpW).response = .error ⟨400, "uploaded_by is required."⟩ ∧
    (runExtract envW reqNoUpW).calls = [] ∧
    (runExtract envW reqNoUpW).db = [] ∧
    envW.cfg.default_uploaded_by = "system" :=
  ⟨rfl, rfl, rfl, rfl⟩

/-- C2 (amended): a request in which neither the form field nor the metadata
blob supplies a non-empty `uploaded_by` fails validation with
400 "uploaded_by is required." — no generative call is made and nothing is
stored; the configured-default fallback exists only inside the persistence
writer (`store_questions_in_db`), where a missing `uploaded_by` argument does
resolve to the trimmed configured default for every stored row. -/
theorem c2_uploaded_by_default (env : Env) (req : ExtractRequest)
    (hpdf : strEndsWith (pyLower req.filename) ".pdf" = true)
    (hmd : metaWellFormed req)
    (hsub : resolveField req.subject_name (requestMeta req) "subject_name" ≠ none)
    (hup : resolveField req.uploaded_by (requestMeta req) "uploaded_by" = none) :
    ((runExtract env req).response = .error ⟨400, "uploaded_by is required."⟩ ∧
     (runExtract env req).calls = [] ∧ (runExtract env req).db = []) ∧
    (∀ (cfg : Config) (ck : Bool) (qs : List (List (String × Json))) (fn : String)
       (subj cls spec upd : Option String) (b : List Question),
       store_questions_in_db cfg ck qs fn subj cls spec none upd = .ok b →
       ∀ row ∈ b, row.uploaded_by = pyStrip cfg.default_uploaded_by) := by
  constructor
  · have hctx := resolveCtx_uploaded_missing req hmd hsub hup
    have hbody := runBody_resolve_err env req _ hctx
    rw [runExtract_eq env req hpdf, hbody]
    exact ⟨rfl, rfl, rfl⟩
  · intro cfg ck qs fn subj cls spec upd b hb row hrow
    rcases store_ok_rows hb row hrow with ⟨sc, hsc, q, _, hq2⟩
    have h1 : sc.uploaded_by = pyStrip cfg.default_uploaded_by :=
      resolveStoreCtx_uploaded_default hsc
    have h2 := (sanitizeCandidate_props hq2).2.2.2.1
    rw [h2, h1]

/-- C2 witness: the amended claim at the concrete no-uploader request (form
and metadata both silent) and at a concrete store call without an uploader,
whose stored row carries the trimmed default "system". -/
theorem c2_uploaded_by_default_witness :
    (runExtract envW reqNoUpW).response = .error ⟨400, "uploaded_by is required."⟩ ∧
    ∀ row ∈ [(⟨"f.pdf", "S", "L", none, none, "q", none, none, none, none, none,
        "system", none⟩ : Question)],
      row.uploaded_by = pyStrip cfgW.default_uploaded_by :=
  ⟨(c2_uploaded_by_default envW reqNoUpW rfl trivial (by decide) rfl).1.1,
   (c2_uploaded_by_default envW reqNoUpW rfl trivial (by decide) rfl).2
     cfgW true [[("question", Json.str "q"), ("lesson_title", Json.str "L")]]
     "f.pdf" (some "S") none none none _ rfl⟩

/-- C5 counterexample: a candidate whose `question_type` is the whitespace
string " " is persisted with `question_type` equal to the empty string — a
present value that is neither absent nor a member of the whitelist, refuting
the claimed invariant "every persisted enum field is a whitelisted value or
absent". -/
theorem c5_counterexample :
    store_questions_in_db cfgW true
        [[("question", Json.str "q"), ("lesson_title", Json.str "L"),
          ("question_type", Json.str " ")]]
        "f.pdf" (some "S") none none (some "u") none =
      .ok [⟨"f.pdf", "S", "L", none, none, "q", some "", none, none, none, none,
           "u", none⟩] ∧
    (some "" : Option String) ≠ none ∧ ¬ "" ∈ allowed_question_types :=
  ⟨by rfl, by decide, by decide⟩

/-- C5 (amended): a `question_type` that is absent is stored as absent; one
that is non-empty after trimming but not whitelisted is stored as absent; the
same holds for `question_difficulty`; neither field can make sanitization
fail; but a present whitespace-only value is stored as the **empty string**,
so every persisted enum field is a whitelisted value, absent, or the empty
string. -/
theorem c5_enum_whitelist (sc : StoreCtx) (q : List (String × Json)) (row : Question)
    (h : sanitizeCandidate sc q = .ok row) :
    (row.question_type = none ∨ row.question_type = some "" ∨
      ∃ t, row.question_type = some t ∧ t ∈ allowed_question_types) ∧
    (row.question_difficulty = none ∨ row.question_difficulty = some "" ∨
      ∃ t, row.question_difficulty = some t ∧ t ∈ allowed_difficulties) ∧
    ((pyGet q "question_type").isNull = true → row.question_type = none) ∧
    (pyStrip (pyStr (pyGet q "question_type")) ≠ "" →
      pyStrip (pyStr (pyGet q "question_type")) ∉ allowed_question_types →
      row.question_type = none) ∧
    ((pyGet q "question_difficulty").isNull = true → row.question_difficulty = none) ∧
    (pyStrip (pyStr (pyGet q "question_difficulty")) ≠ "" →
      pyStrip (pyStr (pyGet q "question_difficulty")) ∉ allowed_difficulties →
      row.question_difficulty = none) ∧
    (∀ v, (sanitizeCandidate sc (dictSet q "question_type" v)).isOk =
          (sanitizeCandidate sc q).isOk ∧
          (sanitizeCandidate sc (dictSet q "question_difficulty" v)).isOk =
          (sanitizeCandidate sc q).isOk) := by
  have hqt := (sanitizeCandidate_props h).2.2.2.2.2.2.1
  have hqd := (sanitizeCandidate_props h).2.2.2.2.2.2.2
  refine ⟨?_, ?_, ?_, ?_, ?_, ?_, ?_⟩
  · rw [hqt]
    exact sanitizeEnum_cases _ _
  · rw [hqd]
    exact sanitizeEnum_cases _ _
  · intro hnull
    rw [hqt]
    apply sanitizeEnum_not_truthy
    cases hg : pyGet q "question_type" <;> rw [hg] at hnull <;>
      simp [Json.isNull] at hnull <;> rfl
  · intro h1 h2
    rw [hqt]
    exact sanitizeEnum_unrecognized h1 h2
  · intro hnull
    rw [hqd]
    apply sanitizeEnum_not_truthy
    cases hg : pyGet q "question_difficulty" <;> rw [hg] at hnull <;>
      simp [Json.isNull] at hnull <;> rfl
  · intro h1 h2
    rw [hqd]
    exact sanitizeEnum_unrecognized h1 h2
  · intro v
    constructor
    · exact sanitizeCandidate_isOk_eq sc _ q
        (pyGet_dictSet_ne q "question_type" v "question" (by decide))
        (pyGet_dictSet_ne q "question_type" v "lesson_title" (by decide))
    · exact sanitizeCandidate_isOk_eq sc _ q
        (pyGet_dictSet_ne q "question_difficulty" v "question" (by decide))
        (pyGet_dictSet_ne q "question_difficulty" v "lesson_title" (by decide))

/-- C5 witness: a concrete candidate with the unrecognized type "Essay" is
persisted with `question_type` absent. -/
theorem c5_enum_whitelist_witness :
    sanitizeCandidate ⟨"f.pdf", "S", none, none, "u", none⟩
        [("question", Json.str "q"), ("lesson_title", Json.str "L"),
         ("question_type", Json.str "Essay")] =
      .ok ⟨"f.pdf", "S", "L", none, none, "q", none, none, none, none, none,
          "u", none⟩ ∧
    (⟨"f.pdf", "S", "L", none, none, "q", none, none, none, none, none,
      "u", none⟩ : Question).question_type = none :=
  ⟨by rfl,
   (c5_enum_whitelist ⟨"f.pdf", "S", none, none, "u", none⟩
      [("question", Json.str "q"), ("lesson_title", Json.str "L"),
       ("question_type", Json.str "Essay")] _ (by rfl)).2.2.2.1
     (by decide) (by decide)⟩

/-- C7 counterexample: "```x[1]" carries a leading fence marker but no
trailing one, so it is not fence-wrapped, yet the code still removes its
leading marker and its final three characters — the response is not parsed
unchanged, refuting the claim at this input. -/
theorem c7_counterexample :
    ¬ isFenceWrapped "```x[1]" ∧ stripCodeFence "```x[1]" ≠ "```x[1]" := by
  constructor
  · intro hw
    exact absurd hw.2 (by decide)
  · decide

/-- C7 (amended): a trimmed response that starts with the tagged marker
```json loses its first 7 characters and its last 3 characters
unconditionally and the remainder is trimmed; one that starts with the bare
marker ``` loses its first 3 and last 3 characters unconditionally and the
remainder is trimmed; one with no leading marker is parsed unchanged. The
trailing marker is never checked: a genuinely fence-wrapped JSON array parses
successfully because its trailing fence is exactly the 3 characters removed,
but a response with a leading marker and no trailing fence loses its last
three characters of payload — "```json [1,2,3]" becomes "[1,2" and fails to
parse, and "```x[1]" becomes "x". -/
theorem c7_fence_stripping (s mid : String) :
    (strStartsWith s "```" = false → stripCodeFence s = s) ∧
    stripCodeFence ("```json" ++ mid) = pyStrip (strDropRight mid 3) ∧
    (strStartsWith ("```" ++ mid) "```json" = false →
      stripCodeFence ("```" ++ mid) = pyStrip (strDropRight mid 3)) ∧
    stripCodeFence ("```json" ++ mid ++ "```") = pyStrip mid ∧
    (strStartsWith ("```" ++ mid ++ "```") "```json" = false →
      stripCodeFence ("```" ++ mid ++ "```") = pyStrip mid) ∧
    json_loads (stripCodeFence "```json[1]```") = some (.arr [.num 1]) ∧
    stripCodeFence "```json [1,2,3]" = "[1,2" ∧
    json_loads (stripCodeFence "```json [1,2,3]") = none ∧
    stripCodeFence "```x[1]" = "x" :=
  ⟨fun h => stripCodeFence_unfenced h,
   stripCodeFence_json_prefix mid,
   fun h => stripCodeFence_fence_prefix mid h,
   stripCodeFence_json_wrapped mid,
   fun h => stripCodeFence_fence_wrapped mid h,
   by rfl, by rfl, by rfl, by rfl⟩

/-- C7 witness: the amended claim at a concrete unfenced response, a concrete
untagged fence-wrapped response, and a concrete tagged response with no
trailing fence, whose last three payload characters are removed. -/
theorem c7_fence_stripping_witness :
    stripCodeFence "hello" = "hello" ∧
    stripCodeFence ("```" ++ "[1]" ++ "```") = pyStrip "[1]" ∧
    stripCodeFence ("```json" ++ " [1,2,3]") = pyStrip (strDropRight " [1,2,3]" 3) :=
  ⟨(c7_fence_stripping "hello" "[1]").1 (by decide),
   (c7_fence_stripping "hello" "[1]").2.2.2.2.1 (by decide),
   (c7_fence_stripping "hello" " [1,2,3]").2.1⟩

/-- C4: every run that reaches the final summary satisfies
`pages_skipped + pages_with_content = total_pages_detected`, and each page
returned by layout extraction is counted exactly once: the summary has one
entry per page, of which exactly the `skipped_empty_content` ones are counted
as skipped and the rest as attempted. -/
theorem c4_page_accounting (env : Env) (req : ExtractRequest) (s : Summary)
    (h : (runExtract env req).response = .ok s) :
    s.pages_skipped + s.pages_with_content = s.total_pages_detected ∧
    s.total_pages_detected = s.pages.length ∧
    s.pages_skipped = s.pages.countP (fun e => e.status = "skipped_empty_content") ∧
    s.pages_with_content =
      s.pages.countP (fun e => ¬ e.status = "skipped_empty_content") := by
  rcases run_success_decompose env req s h with
    ⟨ctx, r, st, hctx, hconf, haz, hne, hloop, hpdf, hdb, hcalls, hs⟩
  rcases processPages_none_ok env ctx _ 0 _ _ hloop with ⟨hall, hst⟩
  have hskip : s.pages_skipped = (pageIdx 0 (assembleLayout r).pages).countP
      (fun ip => pyStrip ip.2.content = "") := by
    rw [hs, hst]
    simp [applyEffects_skipped, initState]
  have hatt : s.pages_with_content = (pageIdx 0 (assembleLayout r).pages).countP
      (fun ip => ¬ pyStrip ip.2.content = "") := by
    rw [hs, hst]
    simp [applyEffects_attempted, initState]
  have hsums2 : s.pages = (pageIdx 0 (assembleLayout r).pages).map (summaryOf env ctx) := by
    rw [hs, hst]
    show (applyEffects env ctx initState (pageIdx 0 (assembleLayout r).pages)).page_summaries
      = (pageIdx 0 (assembleLayout r).pages).map (summaryOf env ctx)
    rw [applyEffects_sums env ctx (pageIdx 0 (assembleLayout r).pages) initState hall]
    simp [initState]
  have htot : s.total_pages_detected = (assembleLayout r).pages.length := by
    rw [hs]
  refine ⟨?_, ?_, ?_, ?_⟩
  · rw [hskip, hatt, htot, ← pageIdx_length (assembleLayout r).pages 0]
    have hcount := countP_add_countP_not
      (fun ip : Nat × PageEntry => decide (pyStrip ip.2.content = ""))
      (pageIdx 0 (assembleLayout r).pages)
    simp only [decide_not]
    exact hcount
  · rw [htot, hsums2, List.length_map, pageIdx_length]
  · rw [hskip, hsums2, List.countP_map]
    apply List.countP_congr
    intro ip _
    simp only [Function.comp]
    constructor
    · intro hws
      exact decide_eq_true ((summaryOf_skip_iff env ctx ip).mpr (of_decide_eq_true hws))
    · intro hst
      exact decide_eq_true ((summaryOf_skip_iff env ctx ip).mp (of_decide_eq_true hst))
  · rw [hatt, hsums2, List.countP_map]
    apply List.countP_congr
    intro ip _
    simp only [Function.comp, decide_eq_true_eq]
    exact (not_congr (summaryOf_skip_iff env ctx ip)).symm

/-- C4 witness: the accounting equation at a concrete successful two-page run
(one page with text, one whitespace-only page). -/
theorem c4_page_accounting_witness :
    (runExtract envW reqW).response =
      .ok ⟨2, 1, 1, 1,
        [⟨1, 1, "processed", none⟩, ⟨2, 0, "skipped_empty_content", none⟩]⟩ ∧
    (1 : Nat) + 1 = 2 :=
  ⟨rfl, by
    have := c4_page_accounting envW reqW
      ⟨2, 1, 1, 1, [⟨1, 1, "processed", none⟩, ⟨2, 0, "skipped_empty_content", none⟩]⟩
      rfl
    exact this.1⟩

/-- C9: in a run that reaches the final summary, a page whose text is empty or
whitespace-only contributes exactly one summary entry — with status
`skipped_empty_content` and zero questions extracted — receives no
generative-service call, commits no rows, and the loop continues; skipping is
the only outcome not counted as an attempt: the attempted count is exactly
the number of non-blank pages and the skipped count exactly the number of
blank ones. -/
theorem c9_blank_page_skipped (env : Env) (req : ExtractRequest) (s : Summary)
    (ctx : RunCtx) (r : AzureResult) (k : Nat)
    (h : (runExtract env req).response = .ok s)
    (hctx : resolveCtx req = .ok ctx)
    (haz : env.azure = .ok r)
    (hk : k < (assembleLayout r).pages.length)
    (hws : pyStrip ((assembleLayout r).pages.get ⟨k, hk⟩).content = "") :
    s.pages[k]? = some ⟨((assembleLayout r).pages.get ⟨k, hk⟩).page_number, 0,
        "skipped_empty_content", none⟩ ∧
    ¬ k ∈ (runExtract env req).calls ∧
    (runExtract env req).db =
      (pageIdx 0 (assembleLayout r).pages).flatMap (batchOf env ctx) ∧
    batchOf env ctx (k, (assembleLayout r).pages.get ⟨k, hk⟩) = [] ∧
    s.pages_skipped = (assembleLayout r).pages.countP (fun p => pyStrip p.content = "") ∧
    s.pages_with_content =
      (assembleLayout r).pages.countP (fun p => ¬ pyStrip p.content = "") := by
  rcases run_success_decompose env req s h with
    ⟨ctx', r', st, hctx', hconf', haz', hne, hloop, hpdf, hdb, hcalls, hs⟩
  rw [hctx] at hctx'
  injection hctx' with hctxEq
  subst hctxEq
  rw [haz] at haz'
  injection haz' with hazEq
  subst hazEq
  rcases processPages_none_ok env ctx _ 0 _ _ hloop with ⟨hall, hst⟩
  have heffk : pageEffect env ctx k ((assembleLayout r).pages.get ⟨k, hk⟩) = .skip :=
    (pageEffect_skip_iff env ctx k _).mpr hws
  have hsums2 : s.pages = (pageIdx 0 (assembleLayout r).pages).map (summaryOf env ctx) := by
    rw [hs, hst]
    show (applyEffects env ctx initState (pageIdx 0 (assembleLayout r).pages)).page_summaries
      = (pageIdx 0 (assembleLayout r).pages).map (summaryOf env ctx)
    rw [applyEffects_sums env ctx (pageIdx 0 (assembleLayout r).pages) initState hall]
    simp [initState]
  refine ⟨?_, ?_, ?_, ?_, ?_, ?_⟩
  · rw [hsums2, List.getElem?_map, pageIdx_getElem?, List.getElem?_eq_getElem hk]
    show some (summaryOf env ctx (0 + k, (assembleLayout r).pages[k])) = _
    rw [Nat.zero_add]
    show some (summaryOf env ctx (k, (assembleLayout r).pages.get ⟨k, hk⟩)) = _
    have hsum : summaryOf env ctx (k, (assembleLayout r).pages.get ⟨k, hk⟩) =
        ⟨((assembleLayout r).pages.get ⟨k, hk⟩).page_number, 0, "skipped_empty_content",
          none⟩ := by
      unfold summaryOf
      rw [show pageEffect env ctx
            ((k, (assembleLayout r).pages.get ⟨k, hk⟩) : Nat × PageEntry).1
            ((k, (assembleLayout r).pages.get ⟨k, hk⟩) : Nat × PageEntry).2
          = pageEffect env ctx k ((assembleLayout r).pages.get ⟨k, hk⟩) from rfl, heffk]
    rw [hsum]
  · intro hmem
    rw [hcalls, hst, applyEffects_calls] at hmem
    simp only [initState, List.nil_append] at hmem
    rcases List.mem_filterMap.mp hmem with ⟨ip, hip, hco⟩
    rcases mem_pageIdx hip with ⟨j, hj, hj1, hj2⟩
    unfold callsOf at hco
    by_cases hwsj : pyStrip ip.2.content = ""
    · rw [if_pos hwsj] at hco
      cases hco
    · rw [if_neg hwsj] at hco
      by_cases hcf : env.openaiConfigured = true
      · rw [if_pos hcf] at hco
        injection hco with hco
        apply hwsj
        rw [hj2]
        have hjk : j = k := by omega
        subst hjk
        exact hws
      · rw [if_neg hcf] at hco
        cases hco
  · rw [hdb, hst, applyEffects_db]
    simp [initState]
  · unfold batchOf
    rw [show pageEffect env ctx ((k, (assembleLayout r).pages.get ⟨k, hk⟩) : Nat × PageEntry).1
        ((k, (assembleLayout r).pages.get ⟨k, hk⟩) : Nat × PageEntry).2
        = pageEffect env ctx k ((assembleLayout r).pages.get ⟨k, hk⟩) from rfl, heffk]
    rfl
  · rw [hs, hst]
    show (applyEffects env ctx initState (pageIdx 0 (assembleLayout r).pages)).pages_skipped = _
    rw [applyEffects_skipped]
    simp only [initState, Nat.zero_add]
    exact pageIdx_countP (fun p => decide (pyStrip p.content = ""))
      ((assembleLayout r).pages) 0
  · rw [hs, hst]
    show (applyEffects env ctx initState (pageIdx 0 (assembleLayout r).pages)).pages_attempted = _
    rw [applyEffects_attempted]
    simp only [initState, Nat.zero_add]
    exact pageIdx_countP (fun p => decide (¬ pyStrip p.content = ""))
      ((assembleLayout r).pages) 0

/-- C9 witness: in the concrete two-page run, the whitespace-only page 2
(index 1) is skipped with the expected summary entry and no generative call. -/
theorem c9_blank_page_skipped_witness :
    ((⟨2, 1, 1, 1, [⟨1, 1, "processed", none⟩, ⟨2, 0, "skipped_empty_content", none⟩]⟩ :
        Summary).pages[1]? =
      some ⟨2, 0, "skipped_empty_content", none⟩) ∧
    ¬ 1 ∈ (runExtract envW reqW).calls := by
  have h := c9_blank_page_skipped envW reqW
    ⟨2, 1, 1, 1, [⟨1, 1, "processed", none⟩, ⟨2, 0, "skipped_empty_content", none⟩]⟩
    ⟨"a.PDF", "S", none, none, "u", none⟩ azureW 1 rfl rfl rfl (by decide) (by decide)
  exact ⟨h.1, h.2.1⟩

/-- C6: a candidate whose `lesson_title` is missing or blank after trimming is
normalized to the validated subject name and persisted with
`lesson_title = subject_name` (the validated subject name being non-empty and
trim-fixed); consequently `question` and `lesson_title` are non-empty in
every record the run ever persists, on successful and on aborted runs alike. -/
theorem c6_lesson_title_defaults :
    (∀ (req : ExtractRequest) (ctx : RunCtx), resolveCtx req = .ok ctx →
      pyStrip ctx.subject_name = ctx.subject_name ∧ ctx.subject_name ≠ "") ∧
    (∀ (ctx : RunCtx) (pn : Nat) (fields d : List (String × Json)) (sc : StoreCtx)
       (row : Question),
      pyStrip ctx.subject_name = ctx.subject_name → ctx.subject_name ≠ "" →
      ((pyGet fields "lesson_title").isNull = true ∨
        pyStrip (pyStr (pyGet fields "lesson_title")) = "") →
      normalizeQuestion ctx pn (.obj fields) = .ok d →
      sanitizeCandidate sc d = .ok row →
      row.lesson_title = ctx.subject_name) ∧
    (∀ (env : Env) (req : ExtractRequest) (row : Question),
      row ∈ (runExtract env req).db →
      row.question ≠ "" ∧ row.lesson_title ≠ "") := by
  refine ⟨fun req ctx h => resolveCtx_ok_subject h, ?_, ?_⟩
  · intro ctx pn fields d sc row hsub hne hmiss hnorm hsan
    have hd := normalizeQuestion_lesson hnorm hmiss
    have hlf := sanitizeCandidate_lesson hsan
    rw [hd] at hlf
    unfold fieldOpt at hlf
    have hstrip : pyStrip (pyStr (Json.str ctx.subject_name)) = ctx.subject_name := hsub
    rw [if_pos ⟨by simpa [pyTruthy] using hne, by rw [hstrip]; exact hne⟩] at hlf
    injection hlf with hlf
    rw [hstrip] at hlf
    exact hlf.symm
  · intro env req row hrow
    have hQ : ∀ (ctx : RunCtx) (idx : Nat) (p : PageEntry) (b : List Question),
        pageEffect env ctx idx p = .processed b →
        ∀ q ∈ b, q.question ≠ "" ∧ q.lesson_title ≠ "" := by
      intro ctx idx p b heff qq hq
      rcases pageEffect_processed_store heff with ⟨sanitized, hstore⟩
      rcases store_ok_rows hstore qq hq with ⟨sc, _, cand, _, hcand⟩
      exact ⟨(sanitizeCandidate_props hcand).1, (sanitizeCandidate_props hcand).2.1⟩
    by_cases hpdf : strEndsWith (pyLower req.filename) ".pdf" = true
    case neg =>
      unfold runExtract at hrow
      rw [if_pos (by simpa using hpdf)] at hrow
      simp at hrow
    case pos =>
      rw [runExtract_eq env req hpdf] at hrow
      simp only at hrow
      rcases runBody_db_cases env req with hnil | ⟨ctx, pages, st, err, hloop, hdb⟩
      · rw [hnil] at hrow
        simp at hrow
      · rw [hdb] at hrow
        have := processPages_db_mem env ctx
          (fun q => q.question ≠ "" ∧ q.lesson_title ≠ "") (hQ ctx) pages 0 initState
          (by intro q hq; simp [initState] at hq)
        rw [hloop] at this
        exact this row hrow

/-- C6 witness: the concrete run's candidate has no `lesson_title`, and its
persisted row carries the subject name "S" as lesson title, with both
invariant fields non-empty. -/
theorem c6_lesson_title_defaults_witness :
    (runExtract envW reqW).db =
      [⟨"a.PDF", "S", "S", none, none, "q", none, none, some "1", none, none,
        "u", none⟩] ∧
    pyStrip "S" = "S" ∧ ("S" : String) ≠ "" ∧
    (⟨"a.PDF", "S", "S", none, none, "q", none, none, some "1", none, none,
      "u", none⟩ : Question).question ≠ "" :=
  ⟨rfl, (c6_lesson_title_defaults.1 reqW ⟨"a.PDF", "S", none, none, "u", none⟩ rfl).1,
   (c6_lesson_title_defaults.1 reqW ⟨"a.PDF", "S", none, none, "u", none⟩ rfl).2,
   (c6_lesson_title_defaults.2.2 envW reqW
     ⟨"a.PDF", "S", "S", none, none, "q", none, none, some "1", none, none, "u", none⟩
     (by rw [show (runExtract envW reqW).db
         = [⟨"a.PDF", "S", "S", none, none, "q", none, none, some "1", none, none,
            "u", none⟩] from rfl]; exact List.mem_singleton.mpr rfl)).1⟩

/-- C3: if the generative service's response for page k fails to parse as a
JSON array of objects, the whole run fails with the extraction error, page k's
summary entry has status `failed` with the error message, no page after k is
attempted (every generative call made has index at most k), and the rows
committed for pages before k remain in the store (no rollback across pages). -/
theorem c3_parse_failure_aborts (env : Env) (req : ExtractRequest)
    (ctx : RunCtx) (r : AzureResult) (k : Nat) (t : String)
    (hpdf : strEndsWith (pyLower req.filename) ".pdf" = true)
    (hctx : resolveCtx req = .ok ctx)
    (hconf : env.azureConfigured = true)
    (haz : env.azure = .ok r)
    (hk : k < (assembleLayout r).pages.length)
    (hpre : ∀ j (hj : j < k), effectOk (pageEffect env ctx j
      ((assembleLayout r).pages.get ⟨j, Nat.lt_trans hj hk⟩)) = true)
    (hws : ¬ pyStrip ((assembleLayout r).pages.get ⟨k, hk⟩).content = "")
    (hopenai : env.openaiConfigured = true)
    (ht : env.llm k = .response t)
    (hparse : isArrayOfObjects (json_loads (stripCodeFence (pyStrip t))) = false) :
    ∃ e : HTTPError,
      extract_questions_from_markdown env.openaiConfigured (env.llm k) = .error e ∧
      (runExtract env req).response = .error e ∧
      (runExtract env req).summaries =
        (pageIdx 0 ((assembleLayout r).pages.take k)).map (summaryOf env ctx) ++
          [⟨((assembleLayout r).pages.get ⟨k, hk⟩).page_number, 0, "failed",
            some e.detail⟩] ∧
      (∀ i ∈ (runExtract env req).calls, i ≤ k) ∧
      (runExtract env req).db =
        (pageIdx 0 ((assembleLayout r).pages.take k)).flatMap (batchOf env ctx) := by
  obtain ⟨e, hx0⟩ := extract_error_of_shape hparse
  have hx : extract_questions_from_markdown env.openaiConfigured (env.llm k) = .error e := by
    rw [hopenai, ht]
    exact hx0
  have heffk : pageEffect env ctx k ((assembleLayout r).pages.get ⟨k, hk⟩) =
      .failedExtract e := pageEffect_failedExtract hws hx
  have hne : (assembleLayout r).pages.isEmpty = false := by
    cases hl : (assembleLayout r).pages with
    | nil => rw [hl] at hk; simp at hk
    | cons a l => rfl
  have habort := processPages_abort env ctx (assembleLayout r).pages 0 initState k hk
    (fun j hj => by rw [Nat.zero_add]; exact hpre j hj)
    (by rw [Nat.zero_add, heffk]; rfl)
  simp only [Nat.zero_add] at habort
  rw [heffk] at habort
  replace habort : processPages env ctx (assembleLayout r).pages 0 initState =
      (applyEffect env ctx k ((assembleLayout r).pages.get ⟨k, hk⟩)
        (applyEffects env ctx initState (pageIdx 0 ((assembleLayout r).pages.take k))),
       some e) := habort
  have hrb := runBody_err env req ctx r _ e hctx hconf haz hne habort
  have hre := runExtract_eq env req hpdf
  have hstF : applyEffect env ctx k ((assembleLayout r).pages.get ⟨k, hk⟩)
      (applyEffects env ctx initState (pageIdx 0 ((assembleLayout r).pages.take k)))
    = stFailedExtract env
        (applyEffects env ctx initState (pageIdx 0 ((assembleLayout r).pages.take k))) k
        ((assembleLayout r).pages.get ⟨k, hk⟩) e := by
    unfold applyEffect
    rw [show pageEffect env ctx k ((assembleLayout r).pages.get ⟨k, hk⟩)
        = PageEffect.failedExtract e from heffk]
  have hallpre : ∀ ip ∈ pageIdx 0 ((assembleLayout r).pages.take k),
      effectOk (pageEffect env ctx ip.1 ip.2) = true := by
    intro ip hip
    rcases mem_pageIdx hip with ⟨j, hj, hj1, hj2⟩
    have hjk : j < k := by
      have hj' := hj
      rw [List.length_take] at hj'
      omega
    have hget : ((assembleLayout r).pages.take k).get ⟨j, hj⟩
        = (assembleLayout r).pages.get ⟨j, Nat.lt_trans hjk hk⟩ := by
      simp [List.get_eq_getElem, List.getElem_take]
    rw [hj1, Nat.zero_add, hj2, hget]
    exact hpre j hjk
  have hresp : (runExtract env req).response = .error e := by
    rw [hre]
    show (runBody env req).1 = .error e
    rw [hrb]
  have hsums : (runExtract env req).summaries =
      (pageIdx 0 ((assembleLayout r).pages.take k)).map (summaryOf env ctx) ++
        [⟨((assembleLayout r).pages.get ⟨k, hk⟩).page_number, 0, "failed",
          some e.detail⟩] := by
    rw [hre]
    show (runBody env req).2.2.2 = _
    rw [hrb]
    show (applyEffect env ctx k ((assembleLayout r).pages.get ⟨k, hk⟩)
        (applyEffects env ctx initState
          (pageIdx 0 ((assembleLayout r).pages.take k)))).page_summaries = _
    rw [hstF]
    show (applyEffects env ctx initState
        (pageIdx 0 ((assembleLayout r).pages.take k))).page_summaries ++
      [⟨((assembleLayout r).pages.get ⟨k, hk⟩).page_number, 0, "failed",
        some e.detail⟩] = _
    rw [applyEffects_sums env ctx _ initState hallpre]
    simp [initState]
  have hcalls : ∀ i ∈ (runExtract env req).calls, i ≤ k := by
    intro i hi
    rw [hre] at hi
    replace hi : i ∈ (runBody env req).2.2.1 := hi
    rw [hrb] at hi
    replace hi : i ∈ (applyEffect env ctx k ((assembleLayout r).pages.get ⟨k, hk⟩)
        (applyEffects env ctx initState
          (pageIdx 0 ((assembleLayout r).pages.take k)))).calls := hi
    rw [hstF] at hi
    replace hi : i ∈ (if env.openaiConfigured then
        (applyEffects env ctx initState
          (pageIdx 0 ((assembleLayout r).pages.take k))).calls ++ [k]
      else (applyEffects env ctx initState
          (pageIdx 0 ((assembleLayout r).pages.take k))).calls) := hi
    rw [if_pos hopenai, applyEffects_calls] at hi
    simp only [initState, List.nil_append] at hi
    rw [List.mem_append] at hi
    rcases hi with hi | hi
    · rcases List.mem_filterMap.mp hi with ⟨ip, hip, hco⟩
      rcases mem_pageIdx hip with ⟨j, hj, hj1, hj2⟩
      have hjk : j < k := by
        have hj' := hj
        rw [List.length_take] at hj'
        omega
      unfold callsOf at hco
      by_cases h1 : pyStrip ip.2.content = ""
      · rw [if_pos h1] at hco
        cases hco
      · rw [if_neg h1] at hco
        by_cases h2 : env.openaiConfigured = true
        · rw [if_pos h2] at hco
          injection hco with hco
          rw [← hco, hj1]
          omega
        · rw [if_neg h2] at hco
          cases hco
    · rw [List.mem_singleton] at hi
      omega
  have hdb : (runExtract env req).db =
      (pageIdx 0 ((assembleLayout r).pages.take k)).flatMap (batchOf env ctx) := by
    rw [hre]
    show (runBody env req).2.1 = _
    rw [hrb]
    show (applyEffect env ctx k ((assembleLayout r).pages.get ⟨k, hk⟩)
        (applyEffects env ctx initState
          (pageIdx 0 ((assembleLayout r).pages.take k)))).db = _
    rw [hstF]
    show (applyEffects env ctx initState
        (pageIdx 0 ((assembleLayout r).pages.take k))).db = _
    rw [applyEffects_db]
    simp [initState]
  exact ⟨e, hx, hresp, hsums, hcalls, hdb⟩

/-- C3 witness: against the environment whose generative service answers the
non-JSON text "nope", the first page's parse failure aborts the concrete run
with an error response and an empty store. -/
theorem c3_parse_failure_aborts_witness :
    ∃ e : HTTPError, (runExtract envFailW reqW).response = .error e ∧
      (runExtract envFailW reqW).db = [] := by
  obtain ⟨e, hx, hresp, hsums, hcalls, hdb⟩ :=
    c3_parse_failure_aborts envFailW reqW ⟨"a.PDF", "S", none, none, "u", none⟩
      azureW 0 "nope" rfl rfl rfl rfl (by decide)
      (fun j hj => absurd hj (Nat.not_lt_zero j)) (by decide) rfl rfl (by rfl)
  exact ⟨e, hresp, by rw [hdb]; rfl⟩

end EduExtract
